import Mathlib

/-!
Shallow embedding of the CashCanvas CSV-ingestion pipeline (`app/parsers.py`,
`app/schemas.py`) and analytics aggregator (`app/crud/operations.py`).

Python `float` amounts are modelled as exact rationals (`ℚ`); Python strings as
Lean `String`.  Each definition is translated from the corresponding source
function; doc comments name the source symbol.
-/

deriving instance DecidableEq for Except

namespace CashCanvas

/-- Models Python's whitespace class for `str.strip()` / `str.split()` /
the regex class `\s` (restricted to its ASCII members, which are the only
ones the CSV data contains). -/
def pyIsSpace (c : Char) : Bool :=
  c = ' ' || c = '\t' || c = '\n' || c = '\r' || c = '\x0b' || c = '\x0c'

/-- Models Python `str.strip()`: drop leading and trailing whitespace. -/
def pyStrip (s : String) : String :=
  String.mk (((s.toList.dropWhile pyIsSpace).reverse.dropWhile pyIsSpace).reverse)

/-- Split a character list on a separator character; models Python
`str.split(sep)` for a one-character separator (an empty string yields a
single empty field, as in Python). -/
def splitOnChar (sep : Char) : List Char → List (List Char)
  | [] => [[]]
  | c :: rest =>
    match splitOnChar sep rest with
    | [] => [[c]]
    | g :: gs => if c = sep then [] :: g :: gs else (c :: g) :: gs

/-- Models Python `str.split(sep)` for a one-character separator. -/
def pySplit (s : String) (sep : Char) : List String :=
  (splitOnChar sep s.toList).map String.mk

/-- ASCII lower-casing of one character. -/
def asciiLower (c : Char) : Char :=
  if 'A' ≤ c ∧ c ≤ 'Z' then Char.ofNat (c.toNat + 32) else c

/-- Models Python `str.lower()` on the ASCII inputs the parsers compare
against the literal "uncategorized". -/
def pyLower (s : String) : String := String.mk (s.toList.map asciiLower)

/-- A single-quote character, used when rendering Python `repr` of strings. -/
def squote : String := String.singleton (Char.ofNat 39)

/-- Python `repr` of a list of strings, as interpolated into f-strings
(e.g. `f"Missing columns: {missing}"`). -/
def pyListRepr (xs : List String) : String :=
  "[" ++ String.intercalate ", " (xs.map (fun s => squote ++ s ++ squote)) ++ "]"

/-- Source `parsers.clean_header`: remove the BOM characters and then all whitespace
(`''.join(cleaned.split())`).  Letter case is preserved. -/
def clean_header (s : String) : String :=
  String.mk ((s.toList.filter (fun c => c ≠ '\uFEFF' ∧ c ≠ '\uFFFE')).filter
    (fun c => ¬ pyIsSpace c))

/-- One insertion into a Python dict modelled as an association list: an
existing key keeps its position and gets the new value, a new key is appended. -/
def dictInsert (m : List (String × String)) (k v : String) : List (String × String) :=
  if m.any (fun p => p.1 = k) then m.map (fun p => if p.1 = k then (k, v) else p)
  else m ++ [(k, v)]

/-- A Python dict comprehension `{f(h): h for h in hs}` modelled as an
association list in insertion order with last-write-wins values. -/
def pyDict (ps : List (String × String)) : List (String × String) :=
  ps.foldl (fun m p => dictInsert m p.1 p.2) []

/-- The `missing` list computed inside `parsers.validate_headers`: display
names of expected headers whose cleaned form is absent from the cleaned forms
of the (truthy) actual headers. -/
def missingHeaders (expected actual : List String) : List String :=
  let normActual := pyDict ((actual.filter (fun h => h ≠ "")).map
    (fun h => (clean_header h, h)))
  let normExpected := pyDict (expected.map (fun h => (clean_header h, h)))
  (normExpected.filter (fun p => ¬ normActual.any (fun q => q.1 = p.1))).map (fun p => p.2)

/-- The `ValueError` message raised by `parsers.validate_headers`. -/
def headerMismatchMsg (sourceName : String) (missing actual : List String) : String :=
  "CSV file does not look like a " ++ sourceName ++ " export. " ++
    "Missing columns: " ++ pyListRepr missing ++ ". " ++
    "Found columns: " ++ pyListRepr actual

/-- Source `parsers.validate_headers`: fail when any expected header (after
cleaning) is absent from the cleaned actual headers, reporting every missing
display name plus all actual headers found. -/
def validate_headers (expected actual : List String) (sourceName : String) :
    Except String Unit :=
  if missingHeaders expected actual ≠ [] then
    .error (headerMismatchMsg sourceName (missingHeaders expected actual) actual)
  else .ok ()

/-- Source `parsers._parse_headers`, restricted to its validation effect: a
file with no header row (`reader.fieldnames` is `None`) is an empty-file
error; otherwise each header is stripped and the set is validated.  The
returned logical-name mapping is not needed here because data rows are
modelled as per-format structures. -/
def parse_headers (expected : List String) (sourceName : String)
    (fieldnames : Option (List String)) : Except String Unit :=
  match fieldnames with
  | none => .error "CSV file appears to be empty"
  | some hs => validate_headers expected (hs.map pyStrip) sourceName

/-- Prefix a message with `"Row {n}: "` when a row number is supplied,
mirroring the error construction in `parsers.clean_currency_string`. -/
def rowPrefix (rowNum : Option Nat) (msg : String) : String :=
  match rowNum with
  | some n => "Row " ++ toString n ++ ": " ++ msg
  | none => msg

/-- Numeric value of an ASCII digit character. -/
def digitVal (c : Char) : Nat := c.toNat - 48

/-- Natural number denoted by a list of ASCII digit characters. -/
def natOfDigits (cs : List Char) : Nat := cs.foldl (fun n c => 10 * n + digitVal c) 0

/-- Models Python `float()` restricted to plain decimal notation (optional
sign, digits, at most one decimal point, at least one digit), which covers
every numeric literal the CSV formats carry; the exponent and special forms
accepted by `float()` are not reachable from the parsers' inputs of interest.
The value is kept exact as a rational. -/
def parseDecimal (s : String) : Option ℚ :=
  let cs := s.toList
  let signed : ℚ × List Char :=
    match cs with
    | '-' :: r => (-1, r)
    | '+' :: r => (1, r)
    | r => (1, r)
  let intPart := signed.2.takeWhile (fun c => c ≠ '.')
  let rest := signed.2.dropWhile (fun c => c ≠ '.')
  match rest with
  | [] =>
    if intPart ≠ [] ∧ intPart.all (·.isDigit) then
      some (signed.1 * natOfDigits intPart)
    else none
  | _ :: frac =>
    if frac.all (fun c => c ≠ '.') ∧ intPart.all (·.isDigit) ∧
        frac.all (·.isDigit) ∧ (intPart ≠ [] ∨ frac ≠ []) then
      some (signed.1 * ((natOfDigits intPart : ℚ) +
        (natOfDigits frac : ℚ) / (10 : ℚ) ^ frac.length))
    else none

/-- Source `parsers.clean_currency_string`: strip, reject empty input, remove
dollar signs, commas and whitespace (`re.sub(r'[$,\s]', '', ...)`), reject an
empty remainder, then convert with `float()`. -/
def clean_currency_string (value : String) (rowNum : Option Nat) : Except String ℚ :=
  if pyStrip value = "" then
    .error (rowPrefix rowNum
      ("Empty or invalid currency value: " ++ squote ++ value ++ squote))
  else
    let cleaned := String.mk ((pyStrip value).toList.filter
      (fun c => ¬ (c = '$' ∨ c = ',' ∨ pyIsSpace c = true)))
    if cleaned = "" then
      .error (rowPrefix rowNum
        ("Empty or invalid currency value: " ++ squote ++ value ++ squote))
    else
      match parseDecimal cleaned with
      | some q => .ok q
      | none => .error (rowPrefix rowNum
          ("Invalid currency value: " ++ squote ++ value ++ squote ++
            ". Expected a number."))

/-- A calendar date, as produced by `datetime.strptime(...).date()`. -/
structure Date where
  year : Nat
  month : Nat
  day : Nat
  deriving DecidableEq, Repr

/-- Gregorian leap-year rule used by `datetime` for day-of-month validation. -/
def isLeap (y : Nat) : Bool := (y % 4 = 0 && y % 100 ≠ 0) || y % 400 = 0

/-- Number of days in a month, as validated by the `datetime` constructor. -/
def daysInMonth (y m : Nat) : Nat :=
  if m = 2 then (if isLeap y then 29 else 28)
  else if m = 4 ∨ m = 6 ∨ m = 9 ∨ m = 11 then 30
  else 31

/-- Field of one or two ASCII digits whose value lies in `[lo, hi]`, the shape
`strptime` accepts for `%m` and `%d`. -/
def parseField2 (s : String) (lo hi : Nat) : Option Nat :=
  let cs := s.toList
  if cs ≠ [] ∧ cs.length ≤ 2 ∧ cs.all (·.isDigit) ∧
      lo ≤ natOfDigits cs ∧ natOfDigits cs ≤ hi then
    some (natOfDigits cs)
  else none

/-- Field of exactly four ASCII digits, the shape `strptime` accepts for `%Y`. -/
def parseYear4 (s : String) : Option Nat :=
  let cs := s.toList
  if cs.length = 4 ∧ cs.all (·.isDigit) then some (natOfDigits cs) else none

/-- Assemble a date once the month, day and year fields parsed, validating the
day against the month length as the `datetime` constructor does. -/
def mkDate (y m d : Nat) : Option Date :=
  if 1 ≤ d ∧ d ≤ daysInMonth y m then some { year := y, month := m, day := d }
  else none

/-- Models `datetime.strptime(s, "%m/%d/%Y").date()`. -/
def parseDateMDY (s : String) : Option Date :=
  match pySplit s '/' with
  | [ms, ds, ys] => do
    let m ← parseField2 ms 1 12
    let d ← parseField2 ds 1 31
    let y ← parseYear4 ys
    mkDate y m d
  | _ => none

/-- Models `datetime.strptime(s, "%Y-%m-%d").date()`. -/
def parseDateISO (s : String) : Option Date :=
  match pySplit s '-' with
  | [ys, ms, ds] => do
    let y ← parseYear4 ys
    let m ← parseField2 ms 1 12
    let d ← parseField2 ds 1 31
    mkDate y m d
  | _ => none

/-- Error message raised by `strptime` on a non-matching input, as stringified
by the row-error collector. -/
def strptimeErr (value fmt : String) : String :=
  "time data " ++ squote ++ value ++ squote ++ " does not match format " ++
    squote ++ fmt ++ squote

/-- The transaction dictionary built by each parser and appended to the
result list (`txn_data` in `parsers.py`). -/
structure TxnData where
  date : Date
  description : String
  costCenterName : Option String
  spendCategoryNames : List String
  amount : ℚ
  account : String
  notes : Option String
  deriving DecidableEq, Repr

/-- Message shape produced by `parsers._validate_transaction_data` when the
Pydantic schema rejects a row. -/
def valFailMsg (rowNum : Nat) (field msg : String) : String :=
  "Row " ++ toString rowNum ++ " validation failed: " ++ field ++ ": " ++ msg

/-- Source `parsers._validate_transaction_data` together with the checks of
`schemas.TransactionCreate`: description and account must strip to a
non-empty string within the length bounds, notes (when present and
non-blank) must fit 200 characters.  The transforming validators
(`default_cost_center`, `default_spend_categories`) cannot fail and are
modelled separately; only the first failing field's message is modelled. -/
def pydanticCheck (rowNum : Nat) (t : TxnData) : Except String Unit :=
  if pyStrip t.description = "" then
    .error (valFailMsg rowNum "description" "Value error, Field cannot be empty or whitespace")
  else if 200 < (pyStrip t.description).length then
    .error (valFailMsg rowNum "description" "String should have at most 200 characters")
  else if pyStrip t.account = "" then
    .error (valFailMsg rowNum "account" "Value error, Field cannot be empty or whitespace")
  else if 50 < (pyStrip t.account).length then
    .error (valFailMsg rowNum "account" "String should have at most 50 characters")
  else
    match t.notes with
    | some s =>
      if pyStrip s ≠ "" ∧ 200 < (pyStrip s).length then
        .error (valFailMsg rowNum "notes" "String should have at most 200 characters")
      else .ok ()
    | none => .ok ()

/-- Source `schemas.TransactionCreate.default_cost_center`: a missing or blank
cost-center name becomes `"Uncategorized"`, otherwise the name is stripped. -/
def default_cost_center (v : Option String) : String :=
  match v with
  | none => "Uncategorized"
  | some s => if pyStrip s = "" then "Uncategorized" else pyStrip s

/-- First-seen-order deduplication with an accumulator of already-seen
elements; models Python `dict.fromkeys` key order and the first-seen
grouping-key order of `defaultdict` aggregation. -/
def firstDedupAux {α : Type} [DecidableEq α] (seen : List α) : List α → List α
  | [] => []
  | a :: l => if a ∈ seen then firstDedupAux seen l else a :: firstDedupAux (a :: seen) l

/-- First-seen-order deduplication of a list. -/
def firstDedup {α : Type} [DecidableEq α] (l : List α) : List α := firstDedupAux [] l

/-- Source `schemas.TransactionCreate.default_spend_categories`: a missing
list or one with no non-blank entry becomes `["Uncategorized"]`; otherwise
entries are stripped, blanks dropped, and duplicates removed keeping the
first occurrence (`list(dict.fromkeys(cleaned))`). -/
def default_spend_categories (v : Option (List String)) : List String :=
  match v with
  | none => ["Uncategorized"]
  | some names =>
    if names = [] ∨ ¬ names.any (fun n => pyStrip n ≠ "") then ["Uncategorized"]
    else firstDedup ((names.filter (fun n => pyStrip n ≠ "")).map pyStrip)

/-- One data row of a Discover export, already resolved to its logical
columns by the header mapping. -/
structure DiscoverRow where
  date : String
  description : String
  amount : String
  category : String
  deriving DecidableEq, Repr

/-- Loop body of `parsers.load_discover_csv` for one data row. -/
def decodeDiscoverRow (rowNum : Nat) (r : DiscoverRow) : Except String TxnData :=
  let dateStr := pyStrip r.date
  if dateStr = "" then .error "Date is empty"
  else match parseDateMDY dateStr with
  | none => .error (strptimeErr dateStr "%m/%d/%Y")
  | some dateObj =>
    let description := pyStrip r.description
    if description = "" then .error "Description is empty"
    else
      let rawAmountStr := pyStrip r.amount
      if rawAmountStr = "" then .error "Amount is empty"
      else match clean_currency_string rawAmountStr (some rowNum) with
      | .error e => .error e
      | .ok rawAmount =>
        let costCenter :=
          if pyStrip r.category = "" then "Uncategorized" else pyStrip r.category
        let txn : TxnData := {
          date := dateObj
          description := description
          costCenterName := some costCenter
          spendCategoryNames := []
          amount := -rawAmount
          account := "Discover"
          notes := none }
        match pydanticCheck rowNum txn with
        | .error e => .error e
        | .ok _ => .ok txn

/-- One data row of a Schwab export, already resolved to its logical columns
(the ignored Status/Type/CheckNumber/RunningBalance columns are omitted). -/
structure SchwabRow where
  date : String
  description : String
  withdrawal : String
  deposit : String
  deriving DecidableEq, Repr

/-- Loop body of `parsers.load_schwab_csv` for one data row. -/
def decodeSchwabRow (rowNum : Nat) (r : SchwabRow) : Except String TxnData :=
  let dateStr := pyStrip r.date
  if dateStr = "" then .error "Date is empty"
  else match parseDateMDY dateStr with
  | none => .error (strptimeErr dateStr "%m/%d/%Y")
  | some dateObj =>
    let description := pyStrip r.description
    if description = "" then .error "Description is empty"
    else
      let withdrawalStr := pyStrip r.withdrawal
      let depositStr := pyStrip r.deposit
      let amountRes : Except String ℚ :=
        if withdrawalStr ≠ "" then
          (clean_currency_string withdrawalStr (some rowNum)).map (fun q => -q)
        else if depositStr ≠ "" then
          clean_currency_string depositStr (some rowNum)
        else .error "Both Withdrawal and Deposit are empty"
      match amountRes with
      | .error e => .error e
      | .ok amount =>
        let txn : TxnData := {
          date := dateObj
          description := description
          amount := amount
          account := "Schwab Checking"
          costCenterName := none
          spendCategoryNames := []
          notes := none }
        match pydanticCheck rowNum txn with
        | .error e => .error e
        | .ok _ => .ok txn

/-- One data row of a CashCanvas export, already resolved to its logical
columns. -/
structure CashCanvasRow where
  date : String
  description : String
  amount : String
  account : String
  costCenter : String
  spendCategories : String
  notes : String
  deriving DecidableEq, Repr

/-- Loop body of `parsers.load_cashcanvas_csv` for one data row. -/
def decodeCashCanvasRow (rowNum : Nat) (r : CashCanvasRow) : Except String TxnData :=
  let dateStr := pyStrip r.date
  if dateStr = "" then .error "Date is empty"
  else
    match (match parseDateISO dateStr with
           | some d => some d
           | none => parseDateMDY dateStr) with
    | none => .error (strptimeErr dateStr "%m/%d/%Y")
    | some dateObj =>
      let description := pyStrip r.description
      if description = "" then .error "Description is empty"
      else
        let amountStr := pyStrip r.amount
        if amountStr = "" then .error "Amount is empty"
        else match clean_currency_string amountStr (some rowNum) with
        | .error e => .error e
        | .ok amount =>
          let account := pyStrip r.account
          if account = "" then .error "Account is empty"
          else
            let ccStr := pyStrip r.costCenter
            let costCenter :=
              if ccStr = "" then none
              else if pyLower ccStr = "uncategorized" then none
              else some ccStr
            let scStr := pyStrip r.spendCategories
            let spendCats :=
              if scStr ≠ "" ∧ pyLower scStr ≠ "uncategorized" then
                ((pySplit scStr ',').map pyStrip).filter (fun c => c ≠ "")
              else []
            let notesStr := pyStrip r.notes
            let txn : TxnData := {
              date := dateObj
              description := description
              amount := amount
              account := account
              costCenterName := costCenter
              spendCategoryNames := spendCats
              notes := if notesStr = "" then none else some notesStr }
            match pydanticCheck rowNum txn with
            | .error e => .error e
            | .ok _ => .ok txn

/-- The per-row loop shared by all three parsers (`for row_num, row in
enumerate(reader, start=2)`): decode each row, collecting successes and
`"Row {n}: {e}"`-formatted errors in order. -/
def processRows {Row : Type} (decode : Nat → Row → Except String TxnData) :
    Nat → List Row → List TxnData × List String
  | _, [] => ([], [])
  | n, r :: rs =>
    let rest := processRows decode (n + 1) rs
    match decode n r with
    | .ok t => (t :: rest.1, rest.2)
    | .error e => (rest.1, ("Row " ++ toString n ++ ": " ++ e) :: rest.2)

/-- The aggregate `ValueError` message each parser raises when any row
failed: total count plus the first 20 row errors joined by newlines. -/
def batchErrorMsg (errors : List String) : String :=
  "CSV validation failed (" ++ toString errors.length ++ " error(s)):\n" ++
    String.intercalate "\n" (errors.take 20)

/-- The batch boundary shared by all three parsers: run every data row, then
either fail with the single aggregate error or return all transactions. -/
def runRows {Row : Type} (decode : Nat → Row → Except String TxnData)
    (rows : List Row) : Except String (List TxnData) :=
  let p := processRows decode 2 rows
  if p.2 = [] then .ok p.1 else .error (batchErrorMsg p.2)

/-- A whole parser run: header validation first (aborting before any row when
it fails), then the per-row loop and the batch boundary. -/
def loadCsv {Row : Type} (expected : List String) (sourceName : String)
    (decode : Nat → Row → Except String TxnData)
    (fieldnames : Option (List String)) (rows : List Row) :
    Except String (List TxnData) :=
  match parse_headers expected sourceName fieldnames with
  | .error e => .error e
  | .ok _ => runRows decode rows

/-- Source `parsers.load_discover_csv`. -/
def load_discover_csv (fieldnames : Option (List String)) (rows : List DiscoverRow) :
    Except String (List TxnData) :=
  loadCsv ["Trans. Date", "Description", "Amount", "Category"] "Discover"
    decodeDiscoverRow fieldnames rows

/-- Source `parsers.load_schwab_csv`. -/
def load_schwab_csv (fieldnames : Option (List String)) (rows : List SchwabRow) :
    Except String (List TxnData) :=
  loadCsv ["Date", "Description", "Withdrawal", "Deposit"] "Schwab Checking"
    decodeSchwabRow fieldnames rows

/-- Source `parsers.load_cashcanvas_csv`. -/
def load_cashcanvas_csv (fieldnames : Option (List String)) (rows : List CashCanvasRow) :
    Except String (List TxnData) :=
  loadCsv ["Date", "Description", "Amount", "Account", "Cost Center",
    "Spend Categories", "Notes"] "CashCanvas Export" decodeCashCanvasRow fieldnames rows

/-- A persisted transaction as handed to `operations.compute_analytics`: the
ORM row with its resolved cost-center relation (id and name) and its list of
spend-category relations (id and name each). -/
structure Transaction where
  id : Nat
  date : Date
  description : String
  amount : ℚ
  account : String
  costCenterId : Nat
  costCenterName : String
  spendCategories : List (Nat × String)
  deriving DecidableEq, Repr

/-- Month grouping key; models `t.date.strftime("%Y-%m")`, whose
lexicographic string order coincides with the order of `(year, month)`. -/
def monthKey (d : Date) : Nat × Nat := (d.year, d.month)

/-- Order on month keys corresponding to Python tuple/string comparison of
`"YYYY-MM"` keys. -/
def monthLe (a b : Nat × Nat) : Prop := a.1 < b.1 ∨ (a.1 = b.1 ∧ a.2 ≤ b.2)

instance : DecidableRel monthLe := fun a b => by unfold monthLe; exact inferInstance

instance : IsTotal (Nat × Nat) monthLe := ⟨by intro a b; unfold monthLe; omega⟩

instance : IsTrans (Nat × Nat) monthLe := ⟨by intro a b c; unfold monthLe; omega⟩

instance : IsAntisymm (Nat × Nat) monthLe :=
  ⟨by
    intro a b h₁ h₂
    obtain ⟨a₁, a₂⟩ := a
    obtain ⟨b₁, b₂⟩ := b
    unfold monthLe at h₁ h₂
    simp only [Prod.mk.injEq]
    omega⟩

/-- Sort key used for the balance timeline: `(t.date, t.id)` lexicographic,
models `sorted(transactions, key=lambda t: (t.date, t.id))`. -/
def txnLe (a b : Transaction) : Prop :=
  a.date.year < b.date.year ∨ (a.date.year = b.date.year ∧
    (a.date.month < b.date.month ∨ (a.date.month = b.date.month ∧
      (a.date.day < b.date.day ∨ (a.date.day = b.date.day ∧ a.id ≤ b.id)))))

instance : DecidableRel txnLe := fun a b => by unfold txnLe; exact inferInstance

instance : IsTotal Transaction txnLe := ⟨by intro a b; unfold txnLe; omega⟩

instance : IsTrans Transaction txnLe := ⟨by intro a b c; unfold txnLe; omega⟩

/-- One entry of `monthly_spending`; `by_cost_center` is the Python dict in
its insertion order, as an association list. -/
structure MonthlyBucket where
  month : Nat × Nat
  total : ℚ
  expense_total : ℚ
  income_total : ℚ
  transaction_count : Nat
  by_cost_center : List (String × ℚ)
  deriving DecidableEq, Repr

/-- One entry of `cost_center_spending`. -/
structure CCBucket where
  cost_center_id : Nat
  cost_center_name : String
  total : ℚ
  expense_total : ℚ
  income_total : ℚ
  transaction_count : Nat
  deriving DecidableEq, Repr

/-- One entry of `spend_category_stats`. -/
structure SCBucket where
  spend_category_id : Nat
  spend_category_name : String
  total : ℚ
  expense_total : ℚ
  income_total : ℚ
  transaction_count : Nat
  deriving DecidableEq, Repr

/-- One entry of `balance_timeline`. -/
structure TimelinePoint where
  date : Date
  balance : ℚ
  description : String
  amount : ℚ
  cost_center_name : String
  deriving DecidableEq, Repr

/-- The dictionary returned by `operations.compute_analytics`. -/
structure AnalyticsResult where
  total_spent : ℚ
  total_income : ℚ
  total_cash : ℚ
  total_transactions : Nat
  total_cost_centers : Nat
  total_spend_categories : Nat
  avg_expense : ℚ
  avg_income : ℚ
  monthly_spending : List MonthlyBucket
  cost_center_spending : List CCBucket
  spend_category_stats : List SCBucket
  balance_timeline : List TimelinePoint
  deriving DecidableEq, Repr

/-- Amounts of a transaction list. -/
def amountsOf (ts : List Transaction) : List ℚ := ts.map (fun t => t.amount)

/-- The sub-list of expense transactions (`t.amount < 0`). -/
def expensesOf (ts : List Transaction) : List Transaction :=
  ts.filter (fun t => t.amount < 0)

/-- The sub-list hitting the `else` branch of the bucket loops
(`t.amount >= 0`, so zero-amount transactions land here). -/
def nonExpensesOf (ts : List Transaction) : List Transaction :=
  ts.filter (fun t => ¬ t.amount < 0)

/-- Transactions of one month bucket. -/
def monthTxns (l : List Transaction) (m : Nat × Nat) : List Transaction :=
  l.filter (fun t => monthKey t.date = m)

/-- The per-month `by_cost_center` breakdown: expense totals keyed by
cost-center name, keys in first-seen order as in the `defaultdict`. -/
def byCostCenterOf (ts : List Transaction) : List (String × ℚ) :=
  (firstDedup ((expensesOf ts).map (fun t => t.costCenterName))).map
    (fun n => (n, (amountsOf ((expensesOf ts).filter (fun t => t.costCenterName = n))).sum))

/-- The monthly bucket for month key `m` accumulated over `l`. -/
def monthlyBucket (l : List Transaction) (m : Nat × Nat) : MonthlyBucket :=
  let ts := monthTxns l m
  { month := m
    total := (amountsOf ts).sum
    expense_total := (amountsOf (expensesOf ts)).sum
    income_total := (amountsOf (nonExpensesOf ts)).sum
    transaction_count := ts.length
    by_cost_center := byCostCenterOf ts }

/-- The `monthly_spending` list: one bucket per distinct month, sorted
ascending by month key (`sorted(monthly_data.items())`). -/
def monthlySpendingOf (l : List Transaction) : List MonthlyBucket :=
  (List.insertionSort monthLe (firstDedup (l.map (fun t => monthKey t.date)))).map
    (monthlyBucket l)

/-- Transactions of one cost-center bucket. -/
def ccTxns (l : List Transaction) (k : Nat) : List Transaction :=
  l.filter (fun t => t.costCenterId = k)

/-- The cost-center bucket for id `k`: the name is taken from the first
transaction seen with that id, as in the source's `if data["id"] is None`
initialisation. -/
def ccBucket (l : List Transaction) (k : Nat) : CCBucket :=
  let ts := ccTxns l k
  { cost_center_id := k
    cost_center_name := (ts.head?.map (fun t => t.costCenterName)).getD ""
    total := (amountsOf ts).sum
    expense_total := (amountsOf (expensesOf ts)).sum
    income_total := (amountsOf (nonExpensesOf ts)).sum
    transaction_count := ts.length }

/-- Comparison used to sort `cost_center_spending`
(`key=lambda x: x["expenses"]`, ascending). -/
def ccLe (a b : CCBucket) : Prop := a.expense_total ≤ b.expense_total

instance : DecidableRel ccLe := fun a b => by unfold ccLe; exact inferInstance

instance : IsTotal CCBucket ccLe := ⟨fun a b => le_total a.expense_total b.expense_total⟩

instance : IsTrans CCBucket ccLe := ⟨fun _ _ _ h₁ h₂ => le_trans h₁ h₂⟩

/-- The `cost_center_spending` list: buckets in first-seen id order, then a
stable sort ascending by expense total. -/
def costCenterSpendingOf (l : List Transaction) : List CCBucket :=
  List.insertionSort ccLe ((firstDedup (l.map (fun t => t.costCenterId))).map (ccBucket l))

/-- The `(category id, category name, transaction amount)` occurrences walked
by the nested loop `for t in transactions: for cat in t.spend_categories`. -/
def catOccs (l : List Transaction) : List (Nat × String × ℚ) :=
  (l.map (fun t => t.spendCategories.map (fun c => (c.1, c.2, t.amount)))).flatten

/-- Occurrences of one spend-category bucket. -/
def scOccs (l : List Transaction) (k : Nat) : List (Nat × String × ℚ) :=
  (catOccs l).filter (fun o => o.1 = k)

/-- The spend-category bucket for id `k`. -/
def scBucket (l : List Transaction) (k : Nat) : SCBucket :=
  let os := scOccs l k
  { spend_category_id := k
    spend_category_name := (os.head?.map (fun o => o.2.1)).getD ""
    total := (os.map (fun o => o.2.2)).sum
    expense_total := ((os.filter (fun o => o.2.2 < 0)).map (fun o => o.2.2)).sum
    income_total := ((os.filter (fun o => ¬ o.2.2 < 0)).map (fun o => o.2.2)).sum
    transaction_count := os.length }

/-- Comparison used to sort `spend_category_stats`. -/
def scLe (a b : SCBucket) : Prop := a.expense_total ≤ b.expense_total

instance : DecidableRel scLe := fun a b => by unfold scLe; exact inferInstance

instance : IsTotal SCBucket scLe := ⟨fun a b => le_total a.expense_total b.expense_total⟩

instance : IsTrans SCBucket scLe := ⟨fun _ _ _ h₁ h₂ => le_trans h₁ h₂⟩

/-- The `spend_category_stats` list. -/
def spendCategoryStatsOf (l : List Transaction) : List SCBucket :=
  List.insertionSort scLe
    ((firstDedup ((catOccs l).map (fun o => o.1))).map (scBucket l))

/-- One timeline point: the running balance after applying `t`. -/
def stepPoint (balance : ℚ) (t : Transaction) : TimelinePoint :=
  { date := t.date
    balance := balance + t.amount
    description := t.description
    amount := t.amount
    cost_center_name := t.costCenterName }

/-- The running-balance walk over already-sorted transactions. -/
def timelineFrom (balance : ℚ) : List Transaction → List TimelinePoint
  | [] => []
  | t :: ts => stepPoint balance t :: timelineFrom (balance + t.amount) ts

/-- Chronological ordering of the input: `sorted` in Python is a stable sort,
modelled by a stable insertion sort over the same total key comparison. -/
def sortedTxns (l : List Transaction) : List Transaction := List.insertionSort txnLe l

/-- The `balance_timeline` list. -/
def balanceTimelineOf (l : List Transaction) : List TimelinePoint :=
  timelineFrom 0 (sortedTxns l)

/-- The all-zero result returned for an empty transaction list. -/
def emptyAnalytics : AnalyticsResult :=
  { total_spent := 0
    total_income := 0
    total_cash := 0
    total_transactions := 0
    total_cost_centers := 0
    total_spend_categories := 0
    avg_expense := 0
    avg_income := 0
    monthly_spending := []
    cost_center_spending := []
    spend_category_stats := []
    balance_timeline := [] }

/-- The non-empty branch body of `operations.compute_analytics`. -/
def analyticsMain (transactions : List Transaction) : AnalyticsResult :=
    let expenses := amountsOf (expensesOf transactions)
    let incomes := amountsOf (transactions.filter (fun t => 0 < t.amount))
    let timeline := balanceTimelineOf transactions
    let finalBalance := match timeline.getLast? with
      | some p => p.balance
      | none => 0
    { total_spent := expenses.sum * (-1)
      total_income := incomes.sum
      total_cash := finalBalance
      total_transactions := transactions.length
      total_cost_centers := (firstDedup (transactions.map (fun t => t.costCenterId))).length
      total_spend_categories := (firstDedup ((catOccs transactions).map (fun o => o.1))).length
      avg_expense := if expenses ≠ [] then expenses.sum / (expenses.length : ℚ) else 0
      avg_income := if incomes ≠ [] then incomes.sum / (incomes.length : ℚ) else 0
      monthly_spending := monthlySpendingOf transactions
      cost_center_spending := costCenterSpendingOf transactions
      spend_category_stats := spendCategoryStatsOf transactions
      balance_timeline := timeline }

/-- Source `operations.compute_analytics`: empty input short-circuits to the
all-zero result, any other input is aggregated by the main body. -/
def compute_analytics (transactions : List Transaction) : AnalyticsResult :=
  if transactions = [] then emptyAnalytics else analyticsMain transactions

/-! ### Library lemmas about the embedded operations -/

theorem mem_firstDedupAux {α : Type} [DecidableEq α] {x : α} :
    ∀ {l seen : List α}, x ∈ firstDedupAux seen l ↔ x ∈ l ∧ x ∉ seen := by
  intro l
  induction l with
  | nil => intro seen; simp [firstDedupAux]
  | cons a l ih =>
    intro seen
    by_cases h : a ∈ seen
    · rw [firstDedupAux, if_pos h, ih]
      simp only [List.mem_cons]
      constructor
      · rintro ⟨h₁, h₂⟩; exact ⟨Or.inr h₁, h₂⟩
      · rintro ⟨h₁ | h₁, h₂⟩
        · subst h₁; exact absurd h h₂
        · exact ⟨h₁, h₂⟩
    · rw [firstDedupAux, if_neg h]
      simp only [List.mem_cons, ih]
      by_cases hx : x = a
      · subst hx; simp [h]
      · simp [hx]

theorem nodup_firstDedupAux {α : Type} [DecidableEq α] :
    ∀ (l seen : List α), (firstDedupAux seen l).Nodup := by
  intro l
  induction l with
  | nil => intro seen; simp [firstDedupAux]
  | cons a l ih =>
    intro seen
    by_cases h : a ∈ seen
    · rw [firstDedupAux, if_pos h]; exact ih seen
    · rw [firstDedupAux, if_neg h]
      refine List.nodup_cons.2 ⟨?_, ih _⟩
      intro hmem
      exact (mem_firstDedupAux.1 hmem).2 (List.mem_cons_self a seen)

theorem mem_firstDedup {α : Type} [DecidableEq α] {x : α} {l : List α} :
    x ∈ firstDedup l ↔ x ∈ l := by
  simp [firstDedup, mem_firstDedupAux]

theorem nodup_firstDedup {α : Type} [DecidableEq α] (l : List α) :
    (firstDedup l).Nodup := nodup_firstDedupAux l []

theorem firstDedup_perm {α : Type} [DecidableEq α] {l₁ l₂ : List α}
    (h : List.Perm l₁ l₂) : List.Perm (firstDedup l₁) (firstDedup l₂) := by
  refine (List.perm_ext_iff_of_nodup (nodup_firstDedup l₁) (nodup_firstDedup l₂)).2 ?_
  intro a
  rw [mem_firstDedup, mem_firstDedup, h.mem_iff]

theorem expense_income_partition (ts : List Transaction) :
    (amountsOf (expensesOf ts)).sum + (amountsOf (nonExpensesOf ts)).sum =
      (amountsOf ts).sum := by
  induction ts with
  | nil => simp [amountsOf, expensesOf, nonExpensesOf]
  | cons t ts ih =>
    unfold amountsOf expensesOf nonExpensesOf at *
    by_cases h : t.amount < 0 <;>
      simp only [List.filter_cons, decide_eq_true_eq, h, not_true, not_false_iff,
        if_true, if_false, List.map_cons, List.sum_cons] <;>
      linarith

theorem occ_partition (os : List (Nat × String × ℚ)) :
    ((os.filter (fun o => o.2.2 < 0)).map (fun o => o.2.2)).sum +
      ((os.filter (fun o => ¬ o.2.2 < 0)).map (fun o => o.2.2)).sum =
      (os.map (fun o => o.2.2)).sum := by
  induction os with
  | nil => simp
  | cons o os ih =>
    by_cases h : o.2.2 < 0 <;>
      simp only [List.filter_cons, decide_eq_true_eq, h, not_true, not_false_iff,
        if_true, if_false, List.map_cons, List.sum_cons] <;>
      linarith

theorem sorted_perm_eq_of_local_antisymm {α : Type} {r : α → α → Prop} :
    ∀ {l₁ l₂ : List α}, List.Perm l₁ l₂ → l₁.Sorted r → l₂.Sorted r →
      (∀ a ∈ l₁, ∀ b ∈ l₁, r a b → r b a → a = b) → l₁ = l₂ := by
  intro l₁
  induction l₁ with
  | nil => intro l₂ hp _ _ _; exact hp.nil_eq
  | cons a t₁ ih =>
    intro l₂ hp hs₁ hs₂ anti
    cases l₂ with
    | nil => exact absurd hp.symm.nil_eq (by simp)
    | cons b t₂ =>
      have hab : a = b := by
        have ha₂ : a ∈ b :: t₂ := hp.subset (List.mem_cons_self a t₁)
        have hb₁ : b ∈ a :: t₁ := hp.symm.subset (List.mem_cons_self b t₂)
        rcases List.mem_cons.1 ha₂ with h | h
        · exact h
        rcases List.mem_cons.1 hb₁ with h2 | h2
        · exact h2.symm
        exact anti a (List.mem_cons_self a t₁) b hb₁
          (List.rel_of_sorted_cons hs₁ b h2) (List.rel_of_sorted_cons hs₂ a h)
      subst hab
      have hp' : List.Perm t₁ t₂ := hp.cons_inv
      have ht : t₁ = t₂ := by
        refine ih hp' hs₁.of_cons hs₂.of_cons ?_
        intro x hx y hy
        exact anti x (List.mem_cons_of_mem a hx) y (List.mem_cons_of_mem a hy)
      rw [ht]

theorem timelineFrom_getLast :
    ∀ (us : List Transaction) (u : Transaction) (b : ℚ),
      ∃ p, (timelineFrom b (u :: us)).getLast? = some p ∧
        p.balance = b + (amountsOf (u :: us)).sum := by
  intro us
  induction us with
  | nil =>
    intro u b
    refine ⟨stepPoint b u, rfl, ?_⟩
    simp [amountsOf, stepPoint]
  | cons v vs ih =>
    intro u b
    obtain ⟨p, hp, hb⟩ := ih v (b + u.amount)
    refine ⟨p, ?_, ?_⟩
    · rw [← hp]
      exact List.getLast?_cons_cons
    · rw [hb]
      simp only [amountsOf, List.map_cons, List.sum_cons]
      ring

/-- Stated from the spec: each data row is numbered starting at 2 (row 1 is
the header), and a failing row `i` (0-based) is reported as
`"Row {i+2}: ..."`. -/
def specRowErrors {Row : Type} (decode : Nat → Row → Except String TxnData)
    (start : Nat) (rows : List Row) : List String :=
  (List.enumFrom start rows).filterMap (fun p =>
    match decode p.1 p.2 with
    | .ok _ => none
    | .error e => some ("Row " ++ toString p.1 ++ ": " ++ e))

theorem processRows_snd_eq {Row : Type} (decode : Nat → Row → Except String TxnData) :
    ∀ (rows : List Row) (start : Nat),
      (processRows decode start rows).2 = specRowErrors decode start rows := by
  intro rows
  induction rows with
  | nil => intro start; rfl
  | cons r rs ih =>
    intro start
    rw [processRows, specRowErrors, List.enumFrom, List.filterMap_cons]
    cases hd : decode start r with
    | ok t => simpa [hd, specRowErrors] using ih (start + 1)
    | error e => simpa [hd, specRowErrors] using ih (start + 1)

theorem analyticsMain_nil : analyticsMain [] = emptyAnalytics := by
  unfold analyticsMain emptyAnalytics
  simp [amountsOf, expensesOf, nonExpensesOf, balanceTimelineOf, sortedTxns,
    timelineFrom, catOccs, firstDedup, firstDedupAux, monthlySpendingOf,
    costCenterSpendingOf, spendCategoryStatsOf, List.insertionSort]

theorem compute_analytics_eq_main (l : List Transaction) :
    compute_analytics l = analyticsMain l := by
  by_cases hl : l = []
  · subst hl
    rw [compute_analytics, if_pos rfl, analyticsMain_nil]
  · rw [compute_analytics, if_neg hl]

theorem byCostCenterOf_perm {ts₁ ts₂ : List Transaction} (h : List.Perm ts₁ ts₂) :
    List.Perm (byCostCenterOf ts₁) (byCostCenterOf ts₂) := by
  unfold byCostCenterOf
  have hes : List.Perm (expensesOf ts₁) (expensesOf ts₂) := h.filter _
  have hf : (fun n => (n,
        (amountsOf ((expensesOf ts₁).filter (fun t => t.costCenterName = n))).sum)) =
      (fun n => (n,
        (amountsOf ((expensesOf ts₂).filter (fun t => t.costCenterName = n))).sum)) := by
    funext n
    have hfp : List.Perm ((expensesOf ts₁).filter (fun t => t.costCenterName = n))
        ((expensesOf ts₂).filter (fun t => t.costCenterName = n)) := hes.filter _
    have : (amountsOf ((expensesOf ts₁).filter (fun t => t.costCenterName = n))).sum =
        (amountsOf ((expensesOf ts₂).filter (fun t => t.costCenterName = n))).sum :=
      (hfp.map _).sum_eq
    rw [this]
  rw [hf]
  exact (firstDedup_perm (hes.map _)).map _

theorem ccBucket_eq_of_perm {l₁ l₂ : List Transaction} (h : List.Perm l₁ l₂)
    (hcc : ∀ t ∈ l₁, ∀ u ∈ l₁, t.costCenterId = u.costCenterId →
      t.costCenterName = u.costCenterName)
    {k : Nat} (hk : ∃ t ∈ l₁, t.costCenterId = k) :
    ccBucket l₁ k = ccBucket l₂ k := by
  have hts : List.Perm (ccTxns l₁ k) (ccTxns l₂ k) := h.filter _
  obtain ⟨t0, ht0, hk0⟩ := hk
  have hne₁ : ccTxns l₁ k ≠ [] := by
    intro hnil
    have hmem : t0 ∈ ccTxns l₁ k := List.mem_filter.2 ⟨ht0, by simp [hk0]⟩
    rw [hnil] at hmem
    exact absurd hmem (List.not_mem_nil t0)
  have hne₂ : ccTxns l₂ k ≠ [] := by
    intro hnil
    rw [hnil] at hts
    exact hne₁ hts.eq_nil
  obtain ⟨x₁, xs₁, e₁⟩ := List.exists_cons_of_ne_nil hne₁
  obtain ⟨x₂, xs₂, e₂⟩ := List.exists_cons_of_ne_nil hne₂
  have hx₁ : x₁ ∈ l₁ ∧ x₁.costCenterId = k := by
    have hmem : x₁ ∈ ccTxns l₁ k := e₁ ▸ List.mem_cons_self x₁ xs₁
    have := List.mem_filter.1 hmem
    exact ⟨this.1, by simpa using this.2⟩
  have hx₂ : x₂ ∈ l₂ ∧ x₂.costCenterId = k := by
    have hmem : x₂ ∈ ccTxns l₂ k := e₂ ▸ List.mem_cons_self x₂ xs₂
    have := List.mem_filter.1 hmem
    exact ⟨this.1, by simpa using this.2⟩
  have hname : x₁.costCenterName = x₂.costCenterName :=
    hcc x₁ hx₁.1 x₂ (h.symm.subset hx₂.1) (by rw [hx₁.2, hx₂.2])
  simp only [ccBucket, CCBucket.mk.injEq]
  refine ⟨trivial, ?_, (hts.map _).sum_eq, ((hts.filter _).map _).sum_eq,
    ((hts.filter _).map _).sum_eq, hts.length_eq⟩
  rw [e₁, e₂]
  simpa using hname

theorem costCenterSpendingOf_perm {l₁ l₂ : List Transaction} (h : List.Perm l₁ l₂)
    (hcc : ∀ t ∈ l₁, ∀ u ∈ l₁, t.costCenterId = u.costCenterId →
      t.costCenterName = u.costCenterName) :
    List.Perm (costCenterSpendingOf l₁) (costCenterSpendingOf l₂) := by
  unfold costCenterSpendingOf
  refine (List.perm_insertionSort _ _).trans
    (List.Perm.trans ?_ (List.perm_insertionSort _ _).symm)
  have hK : List.Perm (firstDedup (l₁.map (fun t => t.costCenterId)))
      (firstDedup (l₂.map (fun t => t.costCenterId))) := firstDedup_perm (h.map _)
  have hmapeq : (firstDedup (l₁.map (fun t => t.costCenterId))).map (ccBucket l₁) =
      (firstDedup (l₁.map (fun t => t.costCenterId))).map (ccBucket l₂) := by
    apply List.map_congr_left
    intro k hkmem
    obtain ⟨t, ht, rfl⟩ := List.mem_map.1 (mem_firstDedup.1 hkmem)
    exact ccBucket_eq_of_perm h hcc ⟨t, ht, rfl⟩
  rw [hmapeq]
  exact hK.map _

theorem catOccs_perm {l₁ l₂ : List Transaction} (h : List.Perm l₁ l₂) :
    List.Perm (catOccs l₁) (catOccs l₂) :=
  (h.map _).flatten

theorem mem_catOccs {l : List Transaction} {o : Nat × String × ℚ} :
    o ∈ catOccs l ↔ ∃ t ∈ l, ∃ c ∈ t.spendCategories, o = (c.1, c.2, t.amount) := by
  simp only [catOccs, List.mem_flatten, List.mem_map]
  constructor
  · rintro ⟨os, ⟨t, ht, rfl⟩, ho⟩
    obtain ⟨c, hc, rfl⟩ := List.mem_map.1 ho
    exact ⟨t, ht, c, hc, rfl⟩
  · rintro ⟨t, ht, c, hc, rfl⟩
    exact ⟨_, ⟨t, ht, rfl⟩, List.mem_map.2 ⟨c, hc, rfl⟩⟩

theorem scBucket_eq_of_perm {l₁ l₂ : List Transaction} (h : List.Perm l₁ l₂)
    (hsc : ∀ t ∈ l₁, ∀ u ∈ l₁, ∀ c ∈ t.spendCategories, ∀ e ∈ u.spendCategories,
      c.1 = e.1 → c.2 = e.2)
    {k : Nat} (hk : ∃ o ∈ catOccs l₁, o.1 = k) :
    scBucket l₁ k = scBucket l₂ k := by
  have hoc : List.Perm (catOccs l₁) (catOccs l₂) := catOccs_perm h
  have hts : List.Perm (scOccs l₁ k) (scOccs l₂ k) := hoc.filter _
  obtain ⟨o0, ho0, hk0⟩ := hk
  have hne₁ : scOccs l₁ k ≠ [] := by
    intro hnil
    have hmem : o0 ∈ scOccs l₁ k := List.mem_filter.2 ⟨ho0, by simp [hk0]⟩
    rw [hnil] at hmem
    exact absurd hmem (List.not_mem_nil o0)
  have hne₂ : scOccs l₂ k ≠ [] := by
    intro hnil
    rw [hnil] at hts
    exact hne₁ hts.eq_nil
  obtain ⟨x₁, xs₁, e₁⟩ := List.exists_cons_of_ne_nil hne₁
  obtain ⟨x₂, xs₂, e₂⟩ := List.exists_cons_of_ne_nil hne₂
  have hx₁ : x₁ ∈ catOccs l₁ ∧ x₁.1 = k := by
    have hmem : x₁ ∈ scOccs l₁ k := e₁ ▸ List.mem_cons_self x₁ xs₁
    have := List.mem_filter.1 hmem
    exact ⟨this.1, by simpa using this.2⟩
  have hx₂ : x₂ ∈ catOccs l₂ ∧ x₂.1 = k := by
    have hmem : x₂ ∈ scOccs l₂ k := e₂ ▸ List.mem_cons_self x₂ xs₂
    have := List.mem_filter.1 hmem
    exact ⟨this.1, by simpa using this.2⟩
  have hname : x₁.2.1 = x₂.2.1 := by
    obtain ⟨t₁, ht₁, c₁, hc₁, hoe₁⟩ := mem_catOccs.1 hx₁.1
    obtain ⟨t₂, ht₂, c₂, hc₂, hoe₂⟩ := mem_catOccs.1 (hoc.symm.subset hx₂.1)
    obtain ⟨t₂', ht₂', c₂', hc₂', hoe₂'⟩ := mem_catOccs.1 hx₂.1
    have hcid : c₁.1 = c₂'.1 := by
      have h1 : x₁.1 = c₁.1 := by rw [hoe₁]
      have h2 : x₂.1 = c₂'.1 := by rw [hoe₂']
      rw [← h1, ← h2, hx₁.2, hx₂.2]
    have ht₂l : t₂' ∈ l₁ := h.symm.subset ht₂'
    have := hsc t₁ ht₁ t₂' ht₂l c₁ hc₁ c₂' hc₂' hcid
    have hn1 : x₁.2.1 = c₁.2 := by rw [hoe₁]
    have hn2 : x₂.2.1 = c₂'.2 := by rw [hoe₂']
    rw [hn1, hn2, this]
  simp only [scBucket, SCBucket.mk.injEq]
  refine ⟨trivial, ?_, (hts.map _).sum_eq, ((hts.filter _).map _).sum_eq,
    ((hts.filter _).map _).sum_eq, hts.length_eq⟩
  rw [e₁, e₂]
  simpa using hname

theorem spendCategoryStatsOf_perm {l₁ l₂ : List Transaction} (h : List.Perm l₁ l₂)
    (hsc : ∀ t ∈ l₁, ∀ u ∈ l₁, ∀ c ∈ t.spendCategories, ∀ e ∈ u.spendCategories,
      c.1 = e.1 → c.2 = e.2) :
    List.Perm (spendCategoryStatsOf l₁) (spendCategoryStatsOf l₂) := by
  unfold spendCategoryStatsOf
  refine (List.perm_insertionSort _ _).trans
    (List.Perm.trans ?_ (List.perm_insertionSort _ _).symm)
  have hK : List.Perm (firstDedup ((catOccs l₁).map (fun o => o.1)))
      (firstDedup ((catOccs l₂).map (fun o => o.1))) :=
    firstDedup_perm ((catOccs_perm h).map _)
  have hmapeq : (firstDedup ((catOccs l₁).map (fun o => o.1))).map (scBucket l₁) =
      (firstDedup ((catOccs l₁).map (fun o => o.1))).map (scBucket l₂) := by
    apply List.map_congr_left
    intro k hkmem
    obtain ⟨o, ho, rfl⟩ := List.mem_map.1 (mem_firstDedup.1 hkmem)
    exact scBucket_eq_of_perm h hsc ⟨o, ho, rfl⟩
  rw [hmapeq]
  exact hK.map _

/-- The order-insensitive fields of a monthly bucket (everything except the
`by_cost_center` breakdown, whose entry order records insertion order). -/
def stripBCC (b : MonthlyBucket) : (Nat × Nat) × ℚ × ℚ × ℚ × Nat :=
  (b.month, b.total, b.expense_total, b.income_total, b.transaction_count)

theorem monthlyBucket_strip_eq {l₁ l₂ : List Transaction} (h : List.Perm l₁ l₂)
    (m : Nat × Nat) : stripBCC (monthlyBucket l₁ m) = stripBCC (monthlyBucket l₂ m) := by
  have hts : List.Perm (monthTxns l₁ m) (monthTxns l₂ m) := h.filter _
  simp only [stripBCC, monthlyBucket, Prod.mk.injEq]
  exact ⟨trivial, (hts.map _).sum_eq, ((hts.filter _).map _).sum_eq,
    ((hts.filter _).map _).sum_eq, hts.length_eq⟩

theorem monthKeys_sorted_eq {l₁ l₂ : List Transaction} (h : List.Perm l₁ l₂) :
    List.insertionSort monthLe (firstDedup (l₁.map (fun t => monthKey t.date))) =
      List.insertionSort monthLe (firstDedup (l₂.map (fun t => monthKey t.date))) := by
  refine List.eq_of_perm_of_sorted ?_ (List.sorted_insertionSort _ _)
    (List.sorted_insertionSort _ _)
  exact (List.perm_insertionSort _ _).trans
    ((firstDedup_perm (h.map _)).trans (List.perm_insertionSort _ _).symm)

theorem monthlySpendingOf_strip_eq {l₁ l₂ : List Transaction} (h : List.Perm l₁ l₂) :
    (monthlySpendingOf l₁).map stripBCC = (monthlySpendingOf l₂).map stripBCC := by
  unfold monthlySpendingOf
  rw [monthKeys_sorted_eq h, List.map_map, List.map_map]
  apply List.map_congr_left
  intro m _
  exact monthlyBucket_strip_eq h m

theorem forall₂_map_map {α β : Type} (R : β → β → Prop) (f g : α → β) :
    ∀ (K : List α), (∀ a ∈ K, R (f a) (g a)) → List.Forall₂ R (K.map f) (K.map g)
  | [], _ => List.Forall₂.nil
  | a :: K, h => List.Forall₂.cons (h a (List.mem_cons_self a K))
      (forall₂_map_map R f g K (fun x hx => h x (List.mem_cons_of_mem a hx)))

theorem monthlySpendingOf_bcc_perm {l₁ l₂ : List Transaction} (h : List.Perm l₁ l₂) :
    List.Forall₂ (fun b₁ b₂ => List.Perm b₁.by_cost_center b₂.by_cost_center)
      (monthlySpendingOf l₁) (monthlySpendingOf l₂) := by
  unfold monthlySpendingOf
  rw [monthKeys_sorted_eq h]
  apply forall₂_map_map
  intro m _
  simp only [monthlyBucket]
  exact byCostCenterOf_perm (h.filter _)

theorem sortedTxns_eq_of_perm {l₁ l₂ : List Transaction} (h : List.Perm l₁ l₂)
    (hid : ∀ t ∈ l₁, ∀ u ∈ l₁, t.id = u.id → t = u) :
    sortedTxns l₁ = sortedTxns l₂ := by
  refine sorted_perm_eq_of_local_antisymm
    ((List.perm_insertionSort _ _).trans (h.trans (List.perm_insertionSort _ _).symm))
    (List.sorted_insertionSort _ _) (List.sorted_insertionSort _ _) ?_
  intro a ha b hb hab hba
  have ha₁ : a ∈ l₁ := (List.perm_insertionSort txnLe l₁).subset ha
  have hb₁ : b ∈ l₁ := (List.perm_insertionSort txnLe l₁).subset hb
  have hidEq : a.id = b.id := by
    unfold txnLe at hab hba
    omega
  exact hid a ha₁ b hb₁ hidEq

theorem total_cash_eq_sum (l : List Transaction) :
    (compute_analytics l).total_cash = (amountsOf l).sum := by
  rw [compute_analytics_eq_main]
  by_cases hl : l = []
  · subst hl
    rw [analyticsMain_nil]
    simp [emptyAnalytics, amountsOf]
  · have hsne : sortedTxns l ≠ [] := by
      intro h0
      have hlen := (List.perm_insertionSort txnLe l).length_eq
      rw [show List.insertionSort txnLe l = sortedTxns l from rfl, h0] at hlen
      exact hl (List.length_eq_zero.1 hlen.symm)
    obtain ⟨u, us, he⟩ := List.exists_cons_of_ne_nil hsne
    obtain ⟨p, hp, hb⟩ := timelineFrom_getLast us u 0
    have hsum : (amountsOf (u :: us)).sum = (amountsOf l).sum := by
      have hperm : List.Perm (u :: us) l := he ▸ List.perm_insertionSort txnLe l
      exact (hperm.map _).sum_eq
    simp only [analyticsMain, balanceTimelineOf, he, hp]
    rw [hb, hsum]
    ring

theorem decodeDiscoverRow_ok {rowNum : Nat} {r : DiscoverRow} {t : TxnData}
    (h : decodeDiscoverRow rowNum r = .ok t) :
    ∃ dateObj q, parseDateMDY (pyStrip r.date) = some dateObj ∧
      clean_currency_string (pyStrip r.amount) (some rowNum) = .ok q ∧
      t = { date := dateObj
            description := pyStrip r.description
            costCenterName := some (if pyStrip r.category = "" then "Uncategorized"
              else pyStrip r.category)
            spendCategoryNames := []
            amount := -q
            account := "Discover"
            notes := none } := by
  rw [decodeDiscoverRow] at h
  by_cases h1 : pyStrip r.date = ""
  · simp [h1] at h
  cases hd : parseDateMDY (pyStrip r.date) with
  | none => simp [h1, hd] at h
  | some dateObj =>
    by_cases h2 : pyStrip r.description = ""
    · simp [h1, hd, h2] at h
    by_cases h3 : pyStrip r.amount = ""
    · simp [h1, hd, h2, h3] at h
    cases hc : clean_currency_string (pyStrip r.amount) (some rowNum) with
    | error e => simp [h1, hd, h2, h3, hc] at h
    | ok q =>
      simp only [h1, hd, h2, h3, hc, if_neg, if_false, ite_false] at h
      split at h
      · exact absurd h (by simp)
      · refine ⟨dateObj, q, rfl, rfl, ?_⟩
        exact (Except.ok.inj h).symm

theorem decodeSchwabRow_ok {rowNum : Nat} {r : SchwabRow} {t : TxnData}
    (h : decodeSchwabRow rowNum r = .ok t) :
    t.account = "Schwab Checking" ∧ t.costCenterName = none ∧
    t.spendCategoryNames = [] ∧ t.notes = none ∧
    ((pyStrip r.withdrawal ≠ "" ∧ ∃ q,
        clean_currency_string (pyStrip r.withdrawal) (some rowNum) = .ok q ∧
        t.amount = -q) ∨
     (pyStrip r.withdrawal = "" ∧ pyStrip r.deposit ≠ "" ∧ ∃ q,
        clean_currency_string (pyStrip r.deposit) (some rowNum) = .ok q ∧
        t.amount = q)) := by
  rw [decodeSchwabRow] at h
  by_cases h1 : pyStrip r.date = ""
  · simp [h1] at h
  cases hd : parseDateMDY (pyStrip r.date) with
  | none => simp [h1, hd] at h
  | some dateObj =>
  by_cases h2 : pyStrip r.description = ""
  · simp [h1, hd, h2] at h
  by_cases hw : pyStrip r.withdrawal = ""
  · by_cases hdep : pyStrip r.deposit = ""
    · simp [h1, hd, h2, hw, hdep] at h
    · cases hc : clean_currency_string (pyStrip r.deposit) (some rowNum) with
      | error e => simp [h1, hd, h2, hw, hdep, hc] at h
      | ok q =>
        simp [h1, hd, h2, hw, hdep, hc, Except.map] at h
        split at h
        · exact absurd h (by simp)
        · obtain rfl := (Except.ok.inj h).symm
          exact ⟨rfl, rfl, rfl, rfl, Or.inr ⟨hw, hdep, q, rfl, rfl⟩⟩
  · cases hc : clean_currency_string (pyStrip r.withdrawal) (some rowNum) with
    | error e => simp [h1, hd, h2, hw, hc, Except.map] at h
    | ok q =>
      simp [h1, hd, h2, hw, hc, Except.map] at h
      split at h
      · exact absurd h (by simp)
      · obtain rfl := (Except.ok.inj h).symm
        exact ⟨rfl, rfl, rfl, rfl, Or.inl ⟨hw, q, rfl, rfl⟩⟩

theorem decodeCashCanvasRow_ok {rowNum : Nat} {r : CashCanvasRow} {t : TxnData}
    (h : decodeCashCanvasRow rowNum r = .ok t) :
    t.spendCategoryNames =
      (if pyStrip r.spendCategories ≠ "" ∧
          pyLower (pyStrip r.spendCategories) ≠ "uncategorized" then
        ((pySplit (pyStrip r.spendCategories) ',').map pyStrip).filter (fun c => c ≠ "")
      else []) := by
  rw [decodeCashCanvasRow] at h
  by_cases h1 : pyStrip r.date = ""
  · simp [h1] at h
  cases hd : (match parseDateISO (pyStrip r.date) with
              | some d => some d
              | none => parseDateMDY (pyStrip r.date)) with
  | none => simp [h1, hd] at h
  | some dateObj =>
  by_cases h2 : pyStrip r.description = ""
  · simp [h1, hd, h2] at h
  by_cases h3 : pyStrip r.amount = ""
  · simp [h1, hd, h2, h3] at h
  cases hc : clean_currency_string (pyStrip r.amount) (some rowNum) with
  | error e => simp [h1, hd, h2, h3, hc] at h
  | ok q =>
    by_cases h4 : pyStrip r.account = ""
    · simp [h1, hd, h2, h3, hc, h4] at h
    · simp [h1, hd, h2, h3, hc, h4] at h
      split at h
      · exact absurd h (by simp)
      · obtain rfl := (Except.ok.inj h).symm
        simp [h4]

theorem discover_amount_negated (rowNum : Nat) (r : DiscoverRow) (t : TxnData)
    (h : decodeDiscoverRow rowNum r = .ok t) :
    ∃ q : ℚ, clean_currency_string (pyStrip r.amount) (some rowNum) = .ok q ∧
      t.amount = -q := by
  obtain ⟨dateObj, q, _, hc, ht⟩ := decodeDiscoverRow_ok h
  exact ⟨q, hc, by rw [ht]⟩

def c7Row : DiscoverRow :=
  { date := "01/15/2024", description := "coffee", amount := "12.50", category := "Dining" }

def c7Txn : TxnData :=
  { date := { year := 2024, month := 1, day := 15 }, description := "coffee",
    costCenterName := some "Dining", spendCategoryNames := [],
    amount := -(25 / 2 : ℚ), account := "Discover", notes := none }

unseal Rat.add Rat.mul Rat.inv Rat.sub in
theorem discover_amount_negated_witness :
    decodeDiscoverRow 2 c7Row = .ok c7Txn ∧
    ∃ q : ℚ, clean_currency_string (pyStrip c7Row.amount) (some 2) = .ok q ∧
      c7Txn.amount = -q :=
  ⟨by decide, discover_amount_negated 2 c7Row c7Txn (by decide)⟩

/-- C1 (amended): on every Schwab CSV data row the decoder accepts, a
non-empty Withdrawal takes precedence and yields the negated withdrawal value
(even when Deposit is also non-empty, which the code does not treat as an
error); with Withdrawal empty, a non-empty Deposit yields the positive
deposit value; a row with both fields empty is a row error. -/
theorem schwab_amount_rule (rowNum : Nat) (r : SchwabRow) :
    (∀ t, decodeSchwabRow rowNum r = .ok t →
      (pyStrip r.withdrawal ≠ "" → ∃ q,
        clean_currency_string (pyStrip r.withdrawal) (some rowNum) = .ok q ∧
        t.amount = -q) ∧
      (pyStrip r.withdrawal = "" → pyStrip r.deposit ≠ "" ∧ ∃ q,
        clean_currency_string (pyStrip r.deposit) (some rowNum) = .ok q ∧
        t.amount = q)) ∧
    (pyStrip r.withdrawal = "" → pyStrip r.deposit = "" →
      ∀ t, decodeSchwabRow rowNum r ≠ .ok t) := by
  constructor
  · intro t h
    obtain ⟨_, _, _, _, hamt⟩ := decodeSchwabRow_ok h
    rcases hamt with ⟨hne, q, hc, ha⟩ | ⟨hw, hdep, q, hc, ha⟩
    · exact ⟨fun _ => ⟨q, hc, ha⟩, fun hw => absurd hw hne⟩
    · exact ⟨fun hne => absurd hw hne, fun _ => ⟨hdep, q, hc, ha⟩⟩
  · intro hw hdep t h
    obtain ⟨_, _, _, _, hamt⟩ := decodeSchwabRow_ok h
    rcases hamt with ⟨hne, _⟩ | ⟨_, hne, _⟩
    · exact hne hw
    · exact hne hdep

/-- Concrete Schwab row with both Withdrawal and Deposit populated. -/
def c1BothRow : SchwabRow :=
  { date := "01/15/2024", description := "transfer",
    withdrawal := "100.00", deposit := "50.00" }

/-- The transaction the Schwab decoder actually produces for `c1BothRow`. -/
def c1BothTxn : TxnData :=
  { date := { year := 2024, month := 1, day := 15 }, description := "transfer",
    costCenterName := none, spendCategoryNames := [], amount := -100,
    account := "Schwab Checking", notes := none }

-- C1 counterexample: a Schwab row with BOTH Withdrawal and Deposit populated
-- is not recorded as a row error as the claim states; the decoder succeeds,
-- Withdrawal taking precedence (amount -100.00).
unseal Rat.add Rat.mul Rat.inv Rat.sub in
theorem schwab_both_populated_not_error :
    decodeSchwabRow 2 c1BothRow = .ok c1BothTxn ∧ c1BothTxn.amount = -100 := by
  exact ⟨by decide, by decide⟩

/-- Concrete Schwab row with only Withdrawal populated. -/
def c1WRow : SchwabRow :=
  { date := "01/15/2024", description := "rent", withdrawal := "100.00", deposit := "" }

/-- The transaction the Schwab decoder produces for `c1WRow`. -/
def c1WTxn : TxnData :=
  { date := { year := 2024, month := 1, day := 15 }, description := "rent",
    costCenterName := none, spendCategoryNames := [], amount := -100,
    account := "Schwab Checking", notes := none }

unseal Rat.add Rat.mul Rat.inv Rat.sub in
theorem schwab_amount_rule_witness :
    decodeSchwabRow 2 c1WRow = .ok c1WTxn ∧ pyStrip c1WRow.withdrawal ≠ "" ∧
    (∃ q, clean_currency_string (pyStrip c1WRow.withdrawal) (some 2) = .ok q ∧
      c1WTxn.amount = -q) :=
  ⟨by decide, by decide,
    ((schwab_amount_rule 2 c1WRow).1 c1WTxn (by decide)).1 (by decide)⟩

/-- Concrete Discover row for the C10 witness. -/
def c10DRow : DiscoverRow :=
  { date := "03/02/2024", description := "book", amount := "30", category := "" }

/-- The transaction the Discover decoder produces for `c10DRow`. -/
def c10DTxn : TxnData :=
  { date := { year := 2024, month := 3, day := 2 }, description := "book",
    costCenterName := some "Uncategorized", spendCategoryNames := [],
    amount := -30, account := "Discover", notes := none }

/-- Concrete Schwab row for the C10 witness. -/
def c10SRow : SchwabRow :=
  { date := "03/02/2024", description := "deposit", withdrawal := "", deposit := "55" }

/-- The transaction the Schwab decoder produces for `c10SRow`. -/
def c10STxn : TxnData :=
  { date := { year := 2024, month := 3, day := 2 }, description := "deposit",
    costCenterName := none, spendCategoryNames := [], amount := 55,
    account := "Schwab Checking", notes := none }

/-- C10: every transaction the Discover decoder returns has its account field
hardcoded to "Discover", every transaction the Schwab decoder returns has its
account hardcoded to "Schwab Checking" with cost-center name `None`, and the
schema validator replaces that `None` with "Uncategorized". -/
theorem parser_accounts_hardcoded :
    (∀ rowNum r t, decodeDiscoverRow rowNum r = .ok t → t.account = "Discover") ∧
    (∀ rowNum r t, decodeSchwabRow rowNum r = .ok t →
      t.account = "Schwab Checking" ∧ t.costCenterName = none) ∧
    default_cost_center none = "Uncategorized" := by
  refine ⟨?_, ?_, rfl⟩
  · intro rowNum r t h
    obtain ⟨dateObj, q, _, _, ht⟩ := decodeDiscoverRow_ok h
    rw [ht]
  · intro rowNum r t h
    obtain ⟨ha, hcc, _, _, _⟩ := decodeSchwabRow_ok h
    exact ⟨ha, hcc⟩

unseal Rat.add Rat.mul Rat.inv Rat.sub in
theorem parser_accounts_hardcoded_witness :
    decodeDiscoverRow 2 c10DRow = .ok c10DTxn ∧ c10DTxn.account = "Discover" ∧
    decodeSchwabRow 2 c10SRow = .ok c10STxn ∧
    (c10STxn.account = "Schwab Checking" ∧ c10STxn.costCenterName = none) ∧
    default_cost_center none = "Uncategorized" :=
  ⟨by decide, parser_accounts_hardcoded.1 2 c10DRow c10DTxn (by decide),
    by decide, parser_accounts_hardcoded.2.1 2 c10SRow c10STxn (by decide),
    parser_accounts_hardcoded.2.2⟩

/-- C2 (amended): the spend-category list returned by the CashCanvas parser
is the comma-split of the Spend Categories field with entries trimmed and
blanks dropped but with duplicates preserved in first-seen order (the literal
"uncategorized" yielding the empty list); deduplication in first-seen order is
performed later, by the schema validator `default_spend_categories`, whose
output is always duplicate-free. -/
theorem cashcanvas_spend_categories :
    (∀ rowNum r t, decodeCashCanvasRow rowNum r = .ok t →
      t.spendCategoryNames =
        (if pyStrip r.spendCategories ≠ "" ∧
            pyLower (pyStrip r.spendCategories) ≠ "uncategorized" then
          ((pySplit (pyStrip r.spendCategories) ',').map pyStrip).filter
            (fun c => c ≠ "")
        else [])) ∧
    (∀ names, (default_spend_categories (some names)).Nodup) := by
  refine ⟨fun rowNum r t h => decodeCashCanvasRow_ok h, ?_⟩
  intro names
  show (if names = [] ∨ ¬ names.any (fun n => pyStrip n ≠ "") then ["Uncategorized"]
    else firstDedup ((names.filter (fun n => pyStrip n ≠ "")).map pyStrip)).Nodup
  by_cases hc : names = [] ∨ ¬ names.any (fun n => pyStrip n ≠ "")
  · rw [if_pos hc]
    exact List.nodup_singleton "Uncategorized"
  · rw [if_neg hc]
    exact nodup_firstDedup _

/-- Concrete CashCanvas row whose Spend Categories field repeats "Food". -/
def c2Row : CashCanvasRow :=
  { date := "2024-01-15", description := "lunch", amount := "-12.50",
    account := "Cash", costCenter := "Food",
    spendCategories := "Food, Food, Travel", notes := "" }

/-- The transaction the CashCanvas decoder produces for `c2Row`. -/
def c2Txn : TxnData :=
  { date := { year := 2024, month := 1, day := 15 }, description := "lunch",
    costCenterName := some "Food",
    spendCategoryNames := ["Food", "Food", "Travel"], amount := -(25 / 2 : ℚ),
    account := "Cash", notes := none }

-- C2 counterexample: the parser keeps the duplicate "Food", so the row with
-- Spend Categories = "Food, Food, Travel" does NOT yield ["Food", "Travel"]
-- at the parser as the claim states.
unseal Rat.add Rat.mul Rat.inv Rat.sub in
theorem cashcanvas_duplicates_preserved :
    decodeCashCanvasRow 2 c2Row = .ok c2Txn ∧
    c2Txn.spendCategoryNames ≠ ["Food", "Travel"] :=
  ⟨by decide, by decide⟩

unseal Rat.add Rat.mul Rat.inv Rat.sub in
theorem cashcanvas_spend_categories_witness :
    decodeCashCanvasRow 2 c2Row = .ok c2Txn ∧
    c2Txn.spendCategoryNames =
      (if pyStrip c2Row.spendCategories ≠ "" ∧
          pyLower (pyStrip c2Row.spendCategories) ≠ "uncategorized" then
        ((pySplit (pyStrip c2Row.spendCategories) ',').map pyStrip).filter
          (fun c => c ≠ "")
      else []) ∧
    default_spend_categories (some c2Txn.spendCategoryNames) = ["Food", "Travel"] ∧
    (default_spend_categories (some ["Food", "Food", "Travel"])).Nodup :=
  ⟨by decide, cashcanvas_spend_categories.1 2 c2Row c2Txn (by decide), by decide,
    cashcanvas_spend_categories.2 ["Food", "Food", "Travel"]⟩

/-- C3: for every CSV input whose rows are decoded by any of the row
decoders, if any data row fails the whole batch call fails with the single
aggregate message (total count shown, only the first 20 row errors joined)
and returns no transactions; the collected errors are exactly the per-row
errors with row numbers counted from 2 (row 1 being the header). -/
theorem batch_error_aggregation {Row : Type}
    (decode : Nat → Row → Except String TxnData) (rows : List Row) :
    (processRows decode 2 rows).2 = specRowErrors decode 2 rows ∧
    ((processRows decode 2 rows).2 ≠ [] →
      runRows decode rows = .error (batchErrorMsg (specRowErrors decode 2 rows)) ∧
      ∀ ts, runRows decode rows ≠ .ok ts) ∧
    ((processRows decode 2 rows).2 = [] →
      runRows decode rows = .ok (processRows decode 2 rows).1) := by
  refine ⟨processRows_snd_eq decode rows 2, ?_, ?_⟩
  · intro hne
    have he : runRows decode rows =
        .error (batchErrorMsg (specRowErrors decode 2 rows)) := by
      unfold runRows
      rw [if_neg hne, processRows_snd_eq decode rows 2]
    refine ⟨he, ?_⟩
    intro ts hok
    rw [he] at hok
    exact absurd hok (by simp)
  · intro hnil
    unfold runRows
    rw [if_pos hnil]

/-- Discover rows for the C3 witness: three valid rows and two invalid ones
(empty date in row 3, empty description in row 5). -/
def c3Rows : List DiscoverRow :=
  [{ date := "01/15/2024", description := "a", amount := "12.50", category := "" },
   { date := "", description := "b", amount := "1", category := "" },
   { date := "01/16/2024", description := "c", amount := "-20.00", category := "Gas" },
   { date := "01/17/2024", description := "", amount := "3", category := "" },
   { date := "01/18/2024", description := "e", amount := "4", category := "" }]

unseal Rat.add Rat.mul Rat.inv Rat.sub in
theorem batch_error_aggregation_witness :
    (processRows decodeDiscoverRow 2 c3Rows).2 ≠ [] ∧
    (runRows decodeDiscoverRow c3Rows =
      .error (batchErrorMsg (specRowErrors decodeDiscoverRow 2 c3Rows)) ∧
      ∀ ts, runRows decodeDiscoverRow c3Rows ≠ .ok ts) ∧
    specRowErrors decodeDiscoverRow 2 c3Rows =
      ["Row 3: Date is empty", "Row 5: Description is empty"] ∧
    batchErrorMsg (specRowErrors decodeDiscoverRow 2 c3Rows) =
      "CSV validation failed (2 error(s)):\nRow 3: Date is empty\nRow 5: Description is empty" :=
  ⟨by decide, (batch_error_aggregation decodeDiscoverRow c3Rows).2.1 (by decide),
    by decide, by decide⟩

theorem any_map_general {α β : Type} (f : α → β) (p : β → Bool) :
    ∀ l : List α, (l.map f).any p = l.any (fun a => p (f a))
  | [] => rfl
  | a :: l => by simp [List.any_cons, any_map_general f p l]

theorem any_key_dictInsert (m : List (String × String)) (k v x : String) :
    ((dictInsert m k v).any (fun q => q.1 = x)) =
      (m.any (fun q => q.1 = x) || decide (k = x)) := by
  unfold dictInsert
  by_cases h : m.any (fun p => p.1 = k)
  · rw [if_pos h, any_map_general]
    have hcomp : (fun p : String × String =>
        (fun q : String × String => decide (q.1 = x)) (if p.1 = k then (k, v) else p)) =
        (fun p : String × String => decide (p.1 = x)) := by
      funext p
      by_cases hp : p.1 = k
      · simp [hp]
      · simp [hp]
    rw [hcomp]
    by_cases hkx : k = x
    · obtain ⟨p, hp, hpe⟩ := List.any_eq_true.1 h
      have hpx : p.1 = x := by
        have := of_decide_eq_true hpe
        rw [this, hkx]
      have : m.any (fun p => decide (p.1 = x)) = true :=
        List.any_eq_true.2 ⟨p, hp, by simp [hpx]⟩
      simp [this]
    · simp [hkx]
  · rw [if_neg h]
    simp [List.any_append]

theorem pyDict_any_key_aux (ps : List (String × String)) :
    ∀ (acc : List (String × String)) (x : String),
      ((ps.foldl (fun m p => dictInsert m p.1 p.2) acc).any (fun q => q.1 = x)) =
        (acc.any (fun q => q.1 = x) || ps.any (fun q => q.1 = x)) := by
  induction ps with
  | nil => intro acc x; simp
  | cons p ps ih =>
    intro acc x
    rw [List.foldl_cons, ih, any_key_dictInsert]
    simp [Bool.or_assoc]

theorem pyDict_any_key (ps : List (String × String)) (x : String) :
    ((pyDict ps).any (fun q => q.1 = x)) = ps.any (fun q => q.1 = x) := by
  unfold pyDict
  rw [pyDict_any_key_aux]
  simp

theorem foldl_dictInsert_eq (ps : List (String × String)) :
    ∀ (acc : List (String × String)),
      (∀ p ∈ ps, ∀ q ∈ acc, p.1 ≠ q.1) → (ps.map Prod.fst).Nodup →
      ps.foldl (fun m p => dictInsert m p.1 p.2) acc = acc ++ ps := by
  induction ps with
  | nil => intro acc _ _; simp
  | cons p ps ih =>
    intro acc hdisj hnd
    rw [List.foldl_cons]
    have hins : dictInsert acc p.1 p.2 = acc ++ [p] := by
      unfold dictInsert
      rw [if_neg, Prod.mk.eta]
      intro hany
      obtain ⟨q, hq, hqe⟩ := List.any_eq_true.1 hany
      exact hdisj p (List.mem_cons_self p ps) q hq (of_decide_eq_true hqe).symm
    have hdisj2 : ∀ a ∈ ps, ∀ q ∈ acc ++ [p], a.1 ≠ q.1 := by
      intro a ha q hq
      rcases List.mem_append.1 hq with hq | hq
      · exact hdisj a (List.mem_cons_of_mem p ha) q hq
      · have hqp : q = p := by simpa using hq
        rw [hqp]
        intro heq
        have hkey : p.1 ∉ ps.map Prod.fst := by
          have hx := hnd
          rw [List.map_cons, List.nodup_cons] at hx
          exact hx.1
        exact hkey (List.mem_map.2 ⟨a, ha, heq⟩)
    have hnd2 : (ps.map Prod.fst).Nodup := by
      have hx := hnd
      rw [List.map_cons, List.nodup_cons] at hx
      exact hx.2
    rw [hins, ih (acc ++ [p]) hdisj2 hnd2]
    simp

theorem pyDict_eq_self (ps : List (String × String))
    (hnd : (ps.map Prod.fst).Nodup) : pyDict ps = ps := by
  unfold pyDict
  rw [foldl_dictInsert_eq ps [] (by intro p _ q hq; cases hq) hnd]
  simp

/-- Stated from the spec: the expected display names whose cleaned form does
not occur among the cleaned forms of the non-empty actual headers. -/
def specMissing (expected actual : List String) : List String :=
  expected.filter (fun e =>
    ¬ ((actual.filter (fun x => x ≠ "")).map clean_header).any
      (fun c => c = clean_header e))

theorem missingHeaders_eq_specMissing (expected actual : List String)
    (hnd : (expected.map clean_header).Nodup) :
    missingHeaders expected actual = specMissing expected actual := by
  simp only [missingHeaders, specMissing]
  have hpd : pyDict (expected.map (fun h => (clean_header h, h))) =
      expected.map (fun h => (clean_header h, h)) := by
    apply pyDict_eq_self
    simpa [List.map_map, Function.comp] using hnd
  rw [hpd, List.filter_map, List.map_map]
  have hsnd : ((fun p : String × String => p.2) ∘
      (fun h => (clean_header h, h))) = id := rfl
  rw [hsnd, List.map_id]
  apply List.filter_congr
  intro e _
  have h1 : (pyDict ((actual.filter (fun h => h ≠ "")).map
        (fun h => (clean_header h, h)))).any (fun q => q.1 = clean_header e) =
      ((actual.filter (fun x => x ≠ "")).map clean_header).any
        (fun c => c = clean_header e) := by
    rw [pyDict_any_key, any_map_general, any_map_general]
  simp only [Function.comp, h1]

/-- C4: header matching is case-sensitive but insensitive to whitespace and
BOM characters on both sides (so " Trans.  Date" followed by a BOM and "Trans. Date" are
equivalent while "trans. date" does not match "Trans. Date"); when required
columns are missing, the missing list names every absent expected display
name, and the parse fails before any row is processed with the error carrying
that full list together with all headers actually found. -/
theorem header_resolution :
    clean_header " Trans.  Date\uFEFF" = clean_header "Trans. Date" ∧
    missingHeaders ["Trans. Date"] ["trans. date"] = ["Trans. Date"] ∧
    (∀ expected actual, (expected.map clean_header).Nodup →
      missingHeaders expected actual = specMissing expected actual) ∧
    (∀ {Row : Type} (expected : List String) (sourceName : String)
        (decode : Nat → Row → Except String TxnData) (hs : List String)
        (rows : List Row), missingHeaders expected (hs.map pyStrip) ≠ [] →
      loadCsv expected sourceName decode (some hs) rows =
        .error (headerMismatchMsg sourceName
          (missingHeaders expected (hs.map pyStrip)) (hs.map pyStrip))) := by
  refine ⟨by decide, by decide, missingHeaders_eq_specMissing, ?_⟩
  intro Row expected sourceName decode hs rows hne
  simp only [loadCsv, parse_headers, validate_headers]
  rw [if_pos hne]

/-- Expected Discover headers, for the C4 witness. -/
def c4Expected : List String := ["Trans. Date", "Description", "Amount", "Category"]

/-- Actual headers with two required columns missing, for the C4 witness. -/
def c4Actual : List String := ["Trans. Date", "Amount"]

theorem header_resolution_witness :
    (c4Expected.map clean_header).Nodup ∧
    missingHeaders c4Expected c4Actual = specMissing c4Expected c4Actual ∧
    missingHeaders c4Expected (c4Actual.map pyStrip) ≠ [] ∧
    loadCsv c4Expected "Discover" decodeDiscoverRow (some c4Actual)
        ([] : List DiscoverRow) =
      .error (headerMismatchMsg "Discover"
        (missingHeaders c4Expected (c4Actual.map pyStrip)) (c4Actual.map pyStrip)) ∧
    missingHeaders c4Expected (c4Actual.map pyStrip) = ["Description", "Category"] :=
  ⟨by decide, header_resolution.2.2.1 c4Expected c4Actual (by decide), by decide,
    header_resolution.2.2.2 c4Expected "Discover" decodeDiscoverRow c4Actual []
      (by decide), by decide⟩

/-- C5: for every transaction list, `total_cash` equals the sum of all
transaction amounts, equals 0 on the empty list, and equals the balance of
the last balance-timeline point when the list is non-empty. -/
theorem total_cash_consistency (l : List Transaction) :
    (compute_analytics l).total_cash = (amountsOf l).sum ∧
    (l = [] → (compute_analytics l).total_cash = 0) ∧
    (l ≠ [] → ∃ p, (compute_analytics l).balance_timeline.getLast? = some p ∧
      p.balance = (compute_analytics l).total_cash) := by
  refine ⟨total_cash_eq_sum l, ?_, ?_⟩
  · intro hl
    subst hl
    rw [total_cash_eq_sum]
    simp [amountsOf]
  · intro hl
    have hsne : sortedTxns l ≠ [] := by
      intro h0
      have hlen := (List.perm_insertionSort txnLe l).length_eq
      rw [show List.insertionSort txnLe l = sortedTxns l from rfl, h0] at hlen
      exact hl (List.length_eq_zero.1 hlen.symm)
    obtain ⟨u, us, he⟩ := List.exists_cons_of_ne_nil hsne
    obtain ⟨p, hp, hb⟩ := timelineFrom_getLast us u 0
    refine ⟨p, ?_, ?_⟩
    · rw [compute_analytics_eq_main]
      simp only [analyticsMain, balanceTimelineOf, he]
      exact hp
    · rw [compute_analytics_eq_main]
      simp only [analyticsMain, balanceTimelineOf, he, hp]

/-- Transactions used by the analytics witnesses. -/
def wT1 : Transaction :=
  { id := 1, date := { year := 2024, month := 1, day := 5 }, description := "a",
    amount := 5, account := "X", costCenterId := 1, costCenterName := "A",
    spendCategories := [(1, "S")] }

/-- Second analytics-witness transaction. -/
def wT2 : Transaction :=
  { id := 2, date := { year := 2024, month := 1, day := 5 }, description := "b",
    amount := 7, account := "X", costCenterId := 2, costCenterName := "B",
    spendCategories := [(2, "T")] }

/-- Third analytics-witness transaction (an expense, and a zero-amount case
is covered separately). -/
def wT3 : Transaction :=
  { id := 3, date := { year := 2024, month := 2, day := 3 }, description := "c",
    amount := -4, account := "X", costCenterId := 1, costCenterName := "A",
    spendCategories := [(1, "S"), (2, "T")] }

unseal Rat.add Rat.mul Rat.inv Rat.sub in
theorem total_cash_consistency_witness :
    ([wT1, wT2, wT3] : List Transaction) ≠ [] ∧
    (compute_analytics [wT1, wT2, wT3]).total_cash = (amountsOf [wT1, wT2, wT3]).sum ∧
    (∃ p, (compute_analytics [wT1, wT2, wT3]).balance_timeline.getLast? = some p ∧
      p.balance = (compute_analytics [wT1, wT2, wT3]).total_cash) :=
  ⟨by decide, (total_cash_consistency [wT1, wT2, wT3]).1,
    (total_cash_consistency [wT1, wT2, wT3]).2.2 (by decide)⟩

/-- C8: in every analytics result, cost_center_spending and
spend_category_stats are sorted ascending by expense_total, so the entry
with the most negative expense_total (the largest spender) appears first. -/
theorem spending_sorted_by_expense (l : List Transaction) :
    ((compute_analytics l).cost_center_spending).Sorted ccLe ∧
    ((compute_analytics l).spend_category_stats).Sorted scLe ∧
    (∀ b bs, (compute_analytics l).cost_center_spending = b :: bs →
      ∀ x ∈ b :: bs, b.expense_total ≤ x.expense_total) ∧
    (∀ b bs, (compute_analytics l).spend_category_stats = b :: bs →
      ∀ x ∈ b :: bs, b.expense_total ≤ x.expense_total) := by
  rw [compute_analytics_eq_main]
  have hcc : (analyticsMain l).cost_center_spending = costCenterSpendingOf l := by
    simp only [analyticsMain]
  have hsc : (analyticsMain l).spend_category_stats = spendCategoryStatsOf l := by
    simp only [analyticsMain]
  rw [hcc, hsc]
  have s1 : (costCenterSpendingOf l).Sorted ccLe := by
    unfold costCenterSpendingOf
    exact List.sorted_insertionSort ccLe _
  have s2 : (spendCategoryStatsOf l).Sorted scLe := by
    unfold spendCategoryStatsOf
    exact List.sorted_insertionSort scLe _
  refine ⟨s1, s2, ?_, ?_⟩
  · intro b bs he x hx
    rcases List.mem_cons.1 hx with hx | hx
    · rw [hx]
    · exact List.rel_of_sorted_cons (he ▸ s1) x hx
  · intro b bs he x hx
    rcases List.mem_cons.1 hx with hx | hx
    · rw [hx]
    · exact List.rel_of_sorted_cons (he ▸ s2) x hx

/-- The first cost-center bucket the analytics computes for the witness
transactions (id 1 has the larger spend, -4). -/
def wCC1 : CCBucket :=
  { cost_center_id := 1, cost_center_name := "A", total := 1,
    expense_total := -4, income_total := 5, transaction_count := 2 }

/-- The second cost-center bucket for the witness transactions. -/
def wCC2 : CCBucket :=
  { cost_center_id := 2, cost_center_name := "B", total := 7,
    expense_total := 0, income_total := 7, transaction_count := 1 }

/-- The first spend-category bucket for the witness transactions. -/
def wSC1 : SCBucket :=
  { spend_category_id := 1, spend_category_name := "S", total := 1,
    expense_total := -4, income_total := 5, transaction_count := 2 }

/-- The second spend-category bucket for the witness transactions. -/
def wSC2 : SCBucket :=
  { spend_category_id := 2, spend_category_name := "T", total := 3,
    expense_total := -4, income_total := 7, transaction_count := 2 }

unseal Rat.add Rat.mul Rat.inv Rat.sub in
theorem spending_sorted_by_expense_witness :
    (compute_analytics [wT1, wT2, wT3]).cost_center_spending = wCC1 :: [wCC2] ∧
    (∀ x ∈ wCC1 :: [wCC2], wCC1.expense_total ≤ x.expense_total) ∧
    (compute_analytics [wT1, wT2, wT3]).spend_category_stats = wSC1 :: [wSC2] ∧
    (∀ x ∈ wSC1 :: [wSC2], wSC1.expense_total ≤ x.expense_total) :=
  ⟨by decide,
    (spending_sorted_by_expense [wT1, wT2, wT3]).2.2.1 wCC1 [wCC2] (by decide),
    by decide,
    (spending_sorted_by_expense [wT1, wT2, wT3]).2.2.2 wSC1 [wSC2] (by decide)⟩

theorem nonExpensesOf_eq (ts : List Transaction) :
    nonExpensesOf ts = ts.filter (fun t => 0 ≤ t.amount) := by
  unfold nonExpensesOf
  apply List.filter_congr
  intro t _
  exact decide_eq_decide.2 not_lt

theorem occ_nonneg_filter_eq (os : List (Nat × String × ℚ)) :
    os.filter (fun o => ¬ o.2.2 < 0) = os.filter (fun o => 0 ≤ o.2.2) := by
  apply List.filter_congr
  intro o _
  exact decide_eq_decide.2 not_lt

theorem txn_count_partition (ts : List Transaction) :
    (expensesOf ts).length + (nonExpensesOf ts).length = ts.length := by
  unfold expensesOf nonExpensesOf
  induction ts with
  | nil => rfl
  | cons t ts ih =>
    by_cases h : t.amount < 0 <;>
      simp only [List.filter_cons, decide_eq_true_eq, h, not_true, not_false_iff,
        if_true, if_false, List.length_cons] <;>
      omega

theorem occ_count_partition (os : List (Nat × String × ℚ)) :
    (os.filter (fun o => o.2.2 < 0)).length +
      (os.filter (fun o => ¬ o.2.2 < 0)).length = os.length := by
  induction os with
  | nil => rfl
  | cons o os ih =>
    by_cases h : o.2.2 < 0 <;>
      simp only [List.filter_cons, decide_eq_true_eq, h, not_true, not_false_iff,
        if_true, if_false, List.length_cons] <;>
      omega

/-- C9: in every bucket of every analytics result, total equals
expense_total plus income_total, the income side is exactly the transactions
(or category occurrences) with amount ≥ 0 — so zero-amount entries are
classified as income, contributing 0 — and transaction_count counts the
expense entries plus the amount-≥-0 entries, zero-amount ones included. -/
theorem bucket_totals_partition (l : List Transaction) :
    (∀ b ∈ (compute_analytics l).monthly_spending,
      b.total = b.expense_total + b.income_total) ∧
    (∀ b ∈ (compute_analytics l).cost_center_spending,
      b.total = b.expense_total + b.income_total) ∧
    (∀ b ∈ (compute_analytics l).spend_category_stats,
      b.total = b.expense_total + b.income_total) ∧
    (∀ m : Nat × Nat, (monthlyBucket l m).income_total =
        (amountsOf ((monthTxns l m).filter (fun t => 0 ≤ t.amount))).sum ∧
      (monthlyBucket l m).transaction_count =
        (expensesOf (monthTxns l m)).length +
          ((monthTxns l m).filter (fun t => 0 ≤ t.amount)).length) ∧
    (∀ k : Nat, (ccBucket l k).income_total =
        (amountsOf ((ccTxns l k).filter (fun t => 0 ≤ t.amount))).sum ∧
      (ccBucket l k).transaction_count =
        (expensesOf (ccTxns l k)).length +
          ((ccTxns l k).filter (fun t => 0 ≤ t.amount)).length) ∧
    (∀ k : Nat, (scBucket l k).income_total =
        (((scOccs l k).filter (fun o => 0 ≤ o.2.2)).map (fun o => o.2.2)).sum ∧
      (scBucket l k).transaction_count =
        ((scOccs l k).filter (fun o => o.2.2 < 0)).length +
          ((scOccs l k).filter (fun o => 0 ≤ o.2.2)).length) := by
  rw [compute_analytics_eq_main]
  refine ⟨?_, ?_, ?_, ?_, ?_, ?_⟩
  · intro b hb
    have hb2 : b ∈ monthlySpendingOf l := by
      simpa only [analyticsMain] using hb
    obtain ⟨m, _, rfl⟩ := List.mem_map.1 hb2
    simp only [monthlyBucket]
    exact (expense_income_partition (monthTxns l m)).symm
  · intro b hb
    have hb2 : b ∈ costCenterSpendingOf l := by
      simpa only [analyticsMain] using hb
    have hb3 : b ∈ (firstDedup (l.map (fun t => t.costCenterId))).map (ccBucket l) :=
      (List.perm_insertionSort ccLe _).subset hb2
    obtain ⟨k, _, rfl⟩ := List.mem_map.1 hb3
    simp only [ccBucket]
    exact (expense_income_partition (ccTxns l k)).symm
  · intro b hb
    have hb2 : b ∈ spendCategoryStatsOf l := by
      simpa only [analyticsMain] using hb
    have hb3 : b ∈ (firstDedup ((catOccs l).map (fun o => o.1))).map (scBucket l) :=
      (List.perm_insertionSort scLe _).subset hb2
    obtain ⟨k, _, rfl⟩ := List.mem_map.1 hb3
    simp only [scBucket]
    exact (occ_partition (scOccs l k)).symm
  · intro m
    constructor
    · simp only [monthlyBucket]
      rw [← nonExpensesOf_eq]
    · simp only [monthlyBucket]
      rw [← nonExpensesOf_eq]
      exact (txn_count_partition (monthTxns l m)).symm
  · intro k
    constructor
    · simp only [ccBucket]
      rw [← nonExpensesOf_eq]
    · simp only [ccBucket]
      rw [← nonExpensesOf_eq]
      exact (txn_count_partition (ccTxns l k)).symm
  · intro k
    constructor
    · simp only [scBucket]
      rw [← occ_nonneg_filter_eq]
    · simp only [scBucket]
      rw [← occ_nonneg_filter_eq]
      exact (occ_count_partition (scOccs l k)).symm

/-- Zero-amount transaction used in the C9 witness. -/
def wT0 : Transaction :=
  { id := 4, date := { year := 2024, month := 2, day := 7 }, description := "zero",
    amount := 0, account := "X", costCenterId := 2, costCenterName := "B",
    spendCategories := [(2, "T")] }

unseal Rat.add Rat.mul Rat.inv Rat.sub in
theorem bucket_totals_partition_witness :
    wCC1 ∈ (compute_analytics [wT1, wT2, wT3]).cost_center_spending ∧
    wCC1.total = wCC1.expense_total + wCC1.income_total ∧
    ((ccBucket [wT1, wT2, wT3, wT0] 2).income_total =
      (amountsOf ((ccTxns [wT1, wT2, wT3, wT0] 2).filter
        (fun t => 0 ≤ t.amount))).sum ∧
     (ccBucket [wT1, wT2, wT3, wT0] 2).transaction_count =
      (expensesOf (ccTxns [wT1, wT2, wT3, wT0] 2)).length +
        ((ccTxns [wT1, wT2, wT3, wT0] 2).filter (fun t => 0 ≤ t.amount)).length) ∧
    (ccBucket [wT1, wT2, wT3, wT0] 2).transaction_count = 2 ∧
    (ccBucket [wT1, wT2, wT3, wT0] 2).income_total = 7 :=
  ⟨by decide,
    (bucket_totals_partition [wT1, wT2, wT3]).2.1 wCC1 (by decide),
    (bucket_totals_partition [wT1, wT2, wT3, wT0]).2.2.2.2.1 2,
    by decide, by decide⟩

-- C6 counterexample: two income-only transactions in different cost centers
-- give tied (zero) expense totals; the stable sort then keeps first-seen
-- order, so permuting the input reorders cost_center_spending, a field other
-- than balance_timeline.
unseal Rat.add Rat.mul Rat.inv Rat.sub in
theorem analytics_not_fully_order_independent :
    List.Perm [wT1, wT2] [wT2, wT1] ∧
    (compute_analytics [wT1, wT2]).cost_center_spending ≠
      (compute_analytics [wT2, wT1]).cost_center_spending := by
  constructor
  · exact List.Perm.swap wT2 wT1 []
  · decide

/-- C6 (amended): for permuted inputs whose transactions are identified by
their ids and whose cost-center / spend-category names are functions of the
respective ids, every scalar field of the analytics result is identical, each
monthly bucket is identical except that the order of its by_cost_center
entries may differ (they are permutations), cost_center_spending and
spend_category_stats are permutations of each other (entry order may differ
when expense totals tie), and the balance timeline is identical. -/
theorem analytics_order_independent (l₁ l₂ : List Transaction)
    (h : List.Perm l₁ l₂)
    (hid : ∀ t ∈ l₁, ∀ u ∈ l₁, t.id = u.id → t = u)
    (hcc : ∀ t ∈ l₁, ∀ u ∈ l₁, t.costCenterId = u.costCenterId →
      t.costCenterName = u.costCenterName)
    (hsc : ∀ t ∈ l₁, ∀ u ∈ l₁, ∀ c ∈ t.spendCategories, ∀ e ∈ u.spendCategories,
      c.1 = e.1 → c.2 = e.2) :
    (compute_analytics l₁).total_spent = (compute_analytics l₂).total_spent ∧
    (compute_analytics l₁).total_income = (compute_analytics l₂).total_income ∧
    (compute_analytics l₁).total_cash = (compute_analytics l₂).total_cash ∧
    (compute_analytics l₁).total_transactions =
      (compute_analytics l₂).total_transactions ∧
    (compute_analytics l₁).total_cost_centers =
      (compute_analytics l₂).total_cost_centers ∧
    (compute_analytics l₁).total_spend_categories =
      (compute_analytics l₂).total_spend_categories ∧
    (compute_analytics l₁).avg_expense = (compute_analytics l₂).avg_expense ∧
    (compute_analytics l₁).avg_income = (compute_analytics l₂).avg_income ∧
    (compute_analytics l₁).monthly_spending.map stripBCC =
      (compute_analytics l₂).monthly_spending.map stripBCC ∧
    List.Forall₂ (fun b₁ b₂ => List.Perm b₁.by_cost_center b₂.by_cost_center)
      (compute_analytics l₁).monthly_spending
      (compute_analytics l₂).monthly_spending ∧
    List.Perm (compute_analytics l₁).cost_center_spending
      (compute_analytics l₂).cost_center_spending ∧
    List.Perm (compute_analytics l₁).spend_category_stats
      (compute_analytics l₂).spend_category_stats ∧
    (compute_analytics l₁).balance_timeline =
      (compute_analytics l₂).balance_timeline := by
  have hexp : List.Perm (amountsOf (expensesOf l₁)) (amountsOf (expensesOf l₂)) := by
    unfold amountsOf expensesOf
    exact (h.filter _).map _
  have hinc : List.Perm (amountsOf (l₁.filter (fun t => 0 < t.amount)))
      (amountsOf (l₂.filter (fun t => 0 < t.amount))) := by
    unfold amountsOf
    exact (h.filter _).map _
  rw [compute_analytics_eq_main, compute_analytics_eq_main]
  refine ⟨?_, ?_, ?_, ?_, ?_, ?_, ?_, ?_, ?_, ?_, ?_, ?_, ?_⟩
  · simp only [analyticsMain]
    rw [hexp.sum_eq]
  · simp only [analyticsMain]
    rw [hinc.sum_eq]
  · rw [← compute_analytics_eq_main, ← compute_analytics_eq_main,
      total_cash_eq_sum, total_cash_eq_sum]
    unfold amountsOf
    exact ((h.map _).sum_eq)
  · simp only [analyticsMain]
    exact h.length_eq
  · simp only [analyticsMain]
    exact (firstDedup_perm (h.map _)).length_eq
  · simp only [analyticsMain]
    exact (firstDedup_perm ((catOccs_perm h).map _)).length_eq
  · simp only [analyticsMain]
    by_cases h0 : amountsOf (expensesOf l₁) = []
    · have h0b : amountsOf (expensesOf l₂) = [] := by
        rw [h0] at hexp
        exact hexp.nil_eq.symm
      rw [if_neg (by simp [h0]), if_neg (by simp [h0b])]
    · have h0b : amountsOf (expensesOf l₂) ≠ [] := by
        intro hx
        rw [hx] at hexp
        exact h0 hexp.symm.nil_eq.symm
      rw [if_pos h0, if_pos h0b, hexp.sum_eq, hexp.length_eq]
  · simp only [analyticsMain]
    by_cases h0 : amountsOf (l₁.filter (fun t => 0 < t.amount)) = []
    · have h0b : amountsOf (l₂.filter (fun t => 0 < t.amount)) = [] := by
        rw [h0] at hinc
        exact hinc.nil_eq.symm
      rw [if_neg (by simp [h0]), if_neg (by simp [h0b])]
    · have h0b : amountsOf (l₂.filter (fun t => 0 < t.amount)) ≠ [] := by
        intro hx
        rw [hx] at hinc
        exact h0 hinc.symm.nil_eq.symm
      rw [if_pos h0, if_pos h0b, hinc.sum_eq, hinc.length_eq]
  · simp only [analyticsMain]
    exact monthlySpendingOf_strip_eq h
  · simp only [analyticsMain]
    exact monthlySpendingOf_bcc_perm h
  · simp only [analyticsMain]
    exact costCenterSpendingOf_perm h hcc
  · simp only [analyticsMain]
    exact spendCategoryStatsOf_perm h hsc
  · simp only [analyticsMain, balanceTimelineOf]
    rw [sortedTxns_eq_of_perm h hid]

unseal Rat.add Rat.mul Rat.inv Rat.sub in
theorem analytics_order_independent_witness :
    List.Perm [wT1, wT2, wT3] [wT2, wT1, wT3] ∧
    (compute_analytics [wT1, wT2, wT3]).total_cash =
      (compute_analytics [wT2, wT1, wT3]).total_cash ∧
    List.Perm (compute_analytics [wT1, wT2, wT3]).cost_center_spending
      (compute_analytics [wT2, wT1, wT3]).cost_center_spending ∧
    (compute_analytics [wT1, wT2, wT3]).balance_timeline =
      (compute_analytics [wT2, wT1, wT3]).balance_timeline :=
  have hperm : List.Perm [wT1, wT2, wT3] [wT2, wT1, wT3] :=
    List.Perm.swap wT2 wT1 [wT3]
  have hthm := analytics_order_independent [wT1, wT2, wT3] [wT2, wT1, wT3] hperm
    (by decide) (by decide) (by decide)
  ⟨hperm, hthm.2.2.1, hthm.2.2.2.2.2.2.2.2.2.2.1,
    hthm.2.2.2.2.2.2.2.2.2.2.2.2⟩
